import Mathlib

/-!
Verification development for the satellite telemetry threat-analysis engine
(`python_backend/threat_analyzer.py`).

The Python module is shallowly embedded:

* floating-point values are modelled as real numbers;
* `datetime` timestamps are modelled as integer epoch seconds (the code only
  stores them and converts them with `int(ts.timestamp())` when building ids);
* Python `dict[int, list]` is modelled as an insertion-ordered association
  list, which is how iteration over `.items()` behaves;
* the fixed-precision float formatting used inside f-strings (`:.1f`, `:.2f`)
  is modelled by an arbitrary, but fixed, function
  `pyFormat : Nat -> Real -> String` (first argument: number of decimals);
  no claim depends on the digits it produces;
* pandas `Series.diff` produces `NaN` in row 0, `mean`/`std` skip `NaN`
  (`std` uses the sample estimator, divisor `count - 1`) and any comparison
  against `NaN` is false; this is modelled by computing the statistics over
  the `n - 1` well-defined differences and by restricting the anomaly filter
  to row indices `1 <= i`;
* `sklearn` DBSCAN is embedded by its documented semantics: the
  eps-neighbourhood is inclusive (`dist <= eps`) and contains the point
  itself; a core point has at least `min_samples` neighbours; clusters are
  the connected components of the core points under the neighbour relation,
  numbered in order of their smallest member index (the scan order of the
  implementation); a non-core point adjacent to a core point is a border
  point and receives the smallest cluster id among its adjacent core points
  (the first BFS that reaches it); all remaining points are noise (`-1`);
* `sklearn` StandardScaler divides by the population standard deviation,
  with zero entries of the scale vector replaced by `1`.
-/

open Classical

noncomputable section

namespace SatTelemetry

/-- Python slice `l[-k:]`: the last `k` elements (all of them when
`l.length <= k`). -/
def lastN (k : ℕ) (l : List α) : List α := l.drop (l.length - k)

@[simp] theorem lastN_length (k : ℕ) (l : List α) :
    (lastN k l).length = l.length - (l.length - k) := by
  simp [lastN]

theorem lastN_of_length_le {k : ℕ} {l : List α} (h : l.length ≤ k) :
    lastN k l = l := by
  simp [lastN, Nat.sub_eq_zero_of_le h]

/-- The inner double loop `for i in range(n): for j in range(i+1, n)`:
all unordered pairs, first component earlier in the list. -/
def upairs : List α → List (α × α)
  | [] => []
  | x :: xs => xs.map (fun y => (x, y)) ++ upairs xs

theorem mem_upairs_of_mem {l : List α} {x y : α}
    (hx : x ∈ l) (hy : y ∈ l) (hne : x ≠ y) :
    (x, y) ∈ upairs l ∨ (y, x) ∈ upairs l := by
  induction l with
  | nil => cases hx
  | cons a as ih =>
    simp only [upairs, List.mem_append, List.mem_map]
    rcases List.mem_cons.mp hx with rfl | hx'
    · have hy' : y ∈ as := by
        rcases List.mem_cons.mp hy with rfl | hy'
        · exact absurd rfl hne
        · exact hy'
      exact Or.inl (Or.inl ⟨y, hy', rfl⟩)
    · rcases List.mem_cons.mp hy with rfl | hy'
      · exact Or.inr (Or.inl ⟨x, hx', rfl⟩)
      · rcases ih hx' hy' with h | h
        · exact Or.inl (Or.inr h)
        · exact Or.inr (Or.inr h)

theorem upairs_subset_pairs {l : List α} {x y : α}
    (h : (x, y) ∈ upairs l) : x ∈ l ∧ y ∈ l := by
  induction l with
  | nil => cases h
  | cons a as ih =>
    simp only [upairs, List.mem_append, List.mem_map] at h
    rcases h with ⟨b, hb, hxy⟩ | h
    · cases hxy; exact ⟨List.mem_cons_self _ _, List.mem_cons_of_mem _ hb⟩
    · exact ⟨List.mem_cons_of_mem _ (ih h).1, List.mem_cons_of_mem _ (ih h).2⟩

/-- `@dataclass SatellitePosition`. -/
structure SatellitePosition where
  satellite_id : ℤ
  latitude : ℝ
  longitude : ℝ
  altitude : ℝ
  velocity : ℝ
  timestamp : ℤ
deriving Inhabited

/-- `@dataclass ThreatEvent`. -/
structure ThreatEvent where
  id : String
  timestamp : ℤ
  source_lat : ℝ
  source_lon : ℝ
  target_lat : ℝ
  target_lon : ℝ
  threat_type : String
  severity : String
  satellite_id : Option ℤ := none
  description : String := ""
deriving Inhabited

/-- The mutable state of the `ThreatAnalyzer` object: the global threat-event
history and the per-satellite position histories (a Python dict, modelled as
an insertion-ordered association list with pairwise distinct keys). -/
structure AnalyzerState where
  threat_events : List ThreatEvent
  satellite_positions : List (ℤ × List SatellitePosition)

/-- `ThreatAnalyzer()` — the freshly constructed analyzer. -/
def initState : AnalyzerState := ⟨[], []⟩

/-- `_calculate_3d_distance`: degrees to radians, radius `6371 + altitude`,
spherical-to-Cartesian conversion, Euclidean distance. -/
def calculate_3d_distance (pos1 pos2 : SatellitePosition) : ℝ :=
  let lat1 := pos1.latitude * Real.pi / 180
  let lon1 := pos1.longitude * Real.pi / 180
  let lat2 := pos2.latitude * Real.pi / 180
  let lon2 := pos2.longitude * Real.pi / 180
  let r1 := 6371 + pos1.altitude
  let r2 := 6371 + pos2.altitude
  let x1 := r1 * Real.cos lat1 * Real.cos lon1
  let y1 := r1 * Real.cos lat1 * Real.sin lon1
  let z1 := r1 * Real.sin lat1
  let x2 := r2 * Real.cos lat2 * Real.cos lon2
  let y2 := r2 * Real.cos lat2 * Real.sin lon2
  let z2 := r2 * Real.sin lat2
  Real.sqrt ((x2 - x1) ^ 2 + (y2 - y1) ^ 2 + (z2 - z1) ^ 2)

theorem calculate_3d_distance_comm (pos1 pos2 : SatellitePosition) :
    calculate_3d_distance pos1 pos2 = calculate_3d_distance pos2 pos1 := by
  simp only [calculate_3d_distance]
  exact congrArg Real.sqrt (by ring)

/-! ### DBSCAN

Embedding of `sklearn.cluster.DBSCAN(...).fit_predict` over an abstract
symmetric adjacency relation (`adj i j` means the distance between points
`i` and `j` is at most `eps`; the concrete instantiations below supply it).
The semantics follows the scan-order-stable implementation: cluster ids are
assigned in order of the smallest index of each core component, border
points receive the smallest cluster id among their adjacent core points,
and every other non-core point is labelled noise (`-1`, here `none`). -/

namespace DBSCAN

/-- The inclusive eps-neighbourhood of point `i` among the `n` points. -/
def neighbors (n : ℕ) (adj : ℕ → ℕ → Prop) (i : ℕ) : Finset ℕ :=
  (Finset.range n).filter (fun j => adj i j)

/-- A core point: at least `minPts` points (itself included) in its
neighbourhood. -/
def core (n minPts : ℕ) (adj : ℕ → ℕ → Prop) (i : ℕ) : Prop :=
  i < n ∧ minPts ≤ (neighbors n adj i).card

/-- One expansion step between two adjacent core points. -/
def coreStep (n minPts : ℕ) (adj : ℕ → ℕ → Prop) (i j : ℕ) : Prop :=
  core n minPts adj i ∧ core n minPts adj j ∧ adj i j

/-- Density-reachability along core points. -/
def reach (n minPts : ℕ) (adj : ℕ → ℕ → Prop) : ℕ → ℕ → Prop :=
  Relation.ReflTransGen (coreStep n minPts adj)

/-- The smallest index in the core component of `i`. -/
def compMin (n minPts : ℕ) (adj : ℕ → ℕ → Prop) (i : ℕ) : ℕ :=
  sInf {j | reach n minPts adj i j}

/-- The representatives (smallest core index) of each component, in scan
order: the BFS of the implementation discovers the components in this
order and numbers them `0, 1, 2, ...`. -/
def reps (n minPts : ℕ) (adj : ℕ → ℕ → Prop) : Finset ℕ :=
  (Finset.range n).filter
    (fun j => core n minPts adj j ∧ compMin n minPts adj j = j)

/-- The cluster id of the component of a core point `i`: the number of
components discovered before it. -/
def clusterIdx (n minPts : ℕ) (adj : ℕ → ℕ → Prop) (i : ℕ) : ℕ :=
  ((reps n minPts adj).filter (fun r => r < compMin n minPts adj i)).card

/-- Total number of clusters. -/
def numClusters (n minPts : ℕ) (adj : ℕ → ℕ → Prop) : ℕ :=
  (reps n minPts adj).card

/-- The core points adjacent to `i`. -/
def adjCores (n minPts : ℕ) (adj : ℕ → ℕ → Prop) (i : ℕ) : Finset ℕ :=
  (neighbors n adj i).filter (core n minPts adj)

/-- The label array produced by `fit_predict`: `some c` for a point of
cluster `c`, `none` for noise (`-1`). -/
def label (n minPts : ℕ) (adj : ℕ → ℕ → Prop) (i : ℕ) : Option ℕ :=
  if core n minPts adj i then some (clusterIdx n minPts adj i)
  else if h : (adjCores n minPts adj i).Nonempty then
    some (((adjCores n minPts adj i).image (clusterIdx n minPts adj)).min'
      (h.image _))
  else none

/-- The row indices of the members of cluster `c`, in scan order
(the boolean mask `labels == c`). -/
def membersIdx (n minPts : ℕ) (adj : ℕ → ℕ → Prop) (c : ℕ) : List ℕ :=
  (List.range n).filter (fun i => label n minPts adj i = some c)

section Lemmas

variable {n minPts : ℕ} {adj : ℕ → ℕ → Prop}

theorem mem_neighbors {i j : ℕ} :
    j ∈ neighbors n adj i ↔ j < n ∧ adj i j := by
  simp [neighbors]

theorem reach_refl (i : ℕ) : reach n minPts adj i i := Relation.ReflTransGen.refl

theorem core_of_reach {i j : ℕ} (hi : core n minPts adj i)
    (h : reach n minPts adj i j) : core n minPts adj j := by
  induction h with
  | refl => exact hi
  | tail _ hstep _ => exact hstep.2.1

theorem reach_symm (hsym : ∀ a b, adj a b → adj b a) {i j : ℕ}
    (h : reach n minPts adj i j) : reach n minPts adj j i := by
  induction h with
  | refl => exact Relation.ReflTransGen.refl
  | tail _ hstep ih =>
    exact Relation.ReflTransGen.head ⟨hstep.2.1, hstep.1, hsym _ _ hstep.2.2⟩ ih

theorem reach_set_eq (hsym : ∀ a b, adj a b → adj b a) {i j : ℕ}
    (h : reach n minPts adj i j) :
    {k | reach n minPts adj i k} = {k | reach n minPts adj j k} :=
  Set.ext fun _ =>
    ⟨fun hk => Relation.ReflTransGen.trans (reach_symm hsym h) hk,
     fun hk => Relation.ReflTransGen.trans h hk⟩

theorem compMin_le {i j : ℕ} (h : reach n minPts adj i j) :
    compMin n minPts adj i ≤ j :=
  Nat.sInf_le h

theorem reach_compMin (i : ℕ) :
    reach n minPts adj i (compMin n minPts adj i) :=
  Nat.sInf_mem ⟨i, reach_refl i⟩

theorem compMin_eq_of_reach (hsym : ∀ a b, adj a b → adj b a) {i j : ℕ}
    (h : reach n minPts adj i j) :
    compMin n minPts adj i = compMin n minPts adj j := by
  unfold compMin
  rw [reach_set_eq hsym h]

theorem core_compMin {i : ℕ} (hi : core n minPts adj i) :
    core n minPts adj (compMin n minPts adj i) :=
  core_of_reach hi (reach_compMin i)

theorem compMin_rep (hsym : ∀ a b, adj a b → adj b a) {i : ℕ} :
    compMin n minPts adj (compMin n minPts adj i) = compMin n minPts adj i :=
  (compMin_eq_of_reach hsym (reach_compMin i)).symm

theorem compMin_mem_reps (hsym : ∀ a b, adj a b → adj b a) {i : ℕ}
    (hi : core n minPts adj i) :
    compMin n minPts adj i ∈ reps n minPts adj := by
  simp only [reps, Finset.mem_filter, Finset.mem_range]
  exact ⟨(core_compMin hi).1, core_compMin hi, compMin_rep hsym⟩

/-- For any finite set of naturals, each rank below the cardinality is
attained by some element. -/
theorem exists_rank_eq (s : Finset ℕ) {c : ℕ} (hc : c < s.card) :
    ∃ r ∈ s, (s.filter (fun x => x < r)).card = c := by
  set φ : ℕ → ℕ := fun r => (s.filter (fun x => x < r)).card with hφ
  have hmono : ∀ a ∈ s, ∀ b ∈ s, a < b → φ a < φ b := by
    intro a ha b hb hab
    apply Finset.card_lt_card
    constructor
    · exact Finset.monotone_filter_right _ (fun x hx => lt_trans hx hab)
    · intro hsub
      have := hsub (Finset.mem_filter.mpr ⟨ha, hab⟩)
      exact absurd (Finset.mem_filter.mp this).2 (lt_irrefl a)
  have hinj : Set.InjOn φ s := by
    intro a ha b hb hab
    by_contra hne
    rcases lt_or_gt_of_ne hne with h | h
    · exact absurd hab (Nat.ne_of_lt (hmono a ha b hb h))
    · exact absurd hab.symm (Nat.ne_of_lt (hmono b hb a ha h))
  have hbound : ∀ a ∈ s, φ a < s.card := by
    intro a ha
    apply Finset.card_lt_card
    constructor
    · exact Finset.filter_subset _ _
    · intro hsub
      have := hsub ha
      exact absurd (Finset.mem_filter.mp this).2 (lt_irrefl a)
  have himg : s.image φ = Finset.range s.card := by
    apply Finset.eq_of_subset_of_card_le
    · intro x hx
      rcases Finset.mem_image.mp hx with ⟨a, ha, rfl⟩
      exact Finset.mem_range.mpr (hbound a ha)
    · rw [Finset.card_range, Finset.card_image_of_injOn hinj]
  have : c ∈ s.image φ := himg ▸ Finset.mem_range.mpr hc
  rcases Finset.mem_image.mp this with ⟨r, hr, hrc⟩
  exact ⟨r, hr, hrc⟩

theorem mem_reps_iff {r : ℕ} :
    r ∈ reps n minPts adj ↔
      core n minPts adj r ∧ compMin n minPts adj r = r := by
  constructor
  · intro h
    exact (Finset.mem_filter.mp h).2
  · intro h
    exact Finset.mem_filter.mpr ⟨Finset.mem_range.mpr h.1.1, h⟩

/-- Every neighbour of a cluster representative belongs to that cluster:
with `minPts ≤ 3` a border point cannot be adjacent to core points of two
different clusters, so no cluster can be robbed of its seed neighbourhood. -/
theorem label_of_mem_neighbors_rep
    (hsym : ∀ a b, adj a b → adj b a)
    (hrefl : ∀ i, i < n → adj i i)
    (h3 : minPts ≤ 3) {r : ℕ}
    (hr : r ∈ reps n minPts adj) {p : ℕ}
    (hp : p ∈ neighbors n adj r) :
    label n minPts adj p = some (clusterIdx n minPts adj r) := by
  obtain ⟨hrcore, hrmin⟩ := mem_reps_iff.mp hr
  obtain ⟨hpn, hadj⟩ := mem_neighbors.mp hp
  by_cases hpc : core n minPts adj p
  · have hreach : reach n minPts adj r p :=
      Relation.ReflTransGen.single ⟨hrcore, hpc, hadj⟩
    have hcm : compMin n minPts adj p = compMin n minPts adj r :=
      (compMin_eq_of_reach hsym hreach).symm
    rw [label, if_pos hpc]
    unfold clusterIdx
    rw [hcm]
  · have hrnb : r ∈ adjCores n minPts adj p := by
      simp only [adjCores, Finset.mem_filter]
      exact ⟨mem_neighbors.mpr ⟨hrcore.1, hsym _ _ hadj⟩, hrcore⟩
    have hne : (adjCores n minPts adj p).Nonempty := ⟨r, hrnb⟩
    have hall : ∀ q ∈ adjCores n minPts adj p,
        clusterIdx n minPts adj q = clusterIdx n minPts adj r := by
      intro q hq
      obtain ⟨hqnb, hqcore⟩ := Finset.mem_filter.mp hq
      obtain ⟨hqn, hpq⟩ := mem_neighbors.mp hqnb
      by_cases hqr : q = r
      · subst hqr; rfl
      · exfalso
        apply hpc
        refine ⟨hpn, ?_⟩
        have hsub3 : ({p, q, r} : Finset ℕ) ⊆ neighbors n adj p := by
          intro x hx
          rcases Finset.mem_insert.mp hx with rfl | hx
          · exact mem_neighbors.mpr ⟨hpn, hrefl x hpn⟩
          rcases Finset.mem_insert.mp hx with rfl | hx
          · exact mem_neighbors.mpr ⟨hqn, hpq⟩
          · rw [Finset.mem_singleton.mp hx]
            exact mem_neighbors.mpr ⟨hrcore.1, hsym _ _ hadj⟩
        have hpq' : p ≠ q := fun h => hpc (h ▸ hqcore)
        have hpr : p ≠ r := fun h => hpc (h ▸ hrcore)
        have hcard3 : ({p, q, r} : Finset ℕ).card = 3 := by
          rw [Finset.card_insert_of_not_mem, Finset.card_insert_of_not_mem,
            Finset.card_singleton]
          · simp [hqr]
          · simp [hpq', hpr]
        calc minPts ≤ 3 := h3
          _ = ({p, q, r} : Finset ℕ).card := hcard3.symm
          _ ≤ (neighbors n adj p).card := Finset.card_le_card hsub3
    have himg : (adjCores n minPts adj p).image (clusterIdx n minPts adj) =
        {clusterIdx n minPts adj r} := by
      apply Finset.ext
      intro x
      simp only [Finset.mem_image, Finset.mem_singleton]
      constructor
      · rintro ⟨q, hq, rfl⟩
        exact hall q hq
      · rintro rfl
        exact ⟨r, hrnb, rfl⟩
    rw [label, if_neg hpc, dif_pos hne]
    congr 1
    apply le_antisymm
    · apply Finset.min'_le
      rw [himg]
      exact Finset.mem_singleton_self _
    · apply Finset.le_min'
      intro y hy
      rw [himg] at hy
      exact le_of_eq (Finset.mem_singleton.mp hy).symm

theorem clusterIdx_rep_lt (hsym : ∀ a b, adj a b → adj b a) {r : ℕ}
    (hr : r ∈ reps n minPts adj) :
    clusterIdx n minPts adj r < numClusters n minPts adj := by
  obtain ⟨hrcore, hrmin⟩ := mem_reps_iff.mp hr
  apply Finset.card_lt_card
  constructor
  · exact Finset.filter_subset _ _
  · intro hsub
    have := hsub (compMin_mem_reps hsym hrcore)
    rw [hrmin] at this
    exact absurd (Finset.mem_filter.mp this).2 (lt_irrefl r)

/-- Every cluster id below `numClusters` is realised by a representative
whose own cluster id it is. -/
theorem exists_rep_clusterIdx {c : ℕ}
    (hc : c < numClusters n minPts adj) :
    ∃ r ∈ reps n minPts adj, clusterIdx n minPts adj r = c := by
  obtain ⟨r, hr, hrank⟩ := exists_rank_eq (reps n minPts adj) hc
  refine ⟨r, hr, ?_⟩
  unfold clusterIdx
  rw [(mem_reps_iff.mp hr).2]
  exact hrank

theorem nodup_membersIdx {c : ℕ} :
    (membersIdx n minPts adj c).Nodup :=
  (List.nodup_range n).filter _

/-- Core theorem: with `minPts ≤ 3` every cluster has at least `minPts`
members (the seed neighbourhood of its representative cannot be stolen). -/
theorem minPts_le_length_membersIdx
    (hsym : ∀ a b, adj a b → adj b a)
    (hrefl : ∀ i, i < n → adj i i)
    (h3 : minPts ≤ 3) {c : ℕ}
    (hc : c < numClusters n minPts adj) :
    minPts ≤ (membersIdx n minPts adj c).length := by
  obtain ⟨r, hr, hcid⟩ := exists_rep_clusterIdx hc
  have hrcore := (mem_reps_iff.mp hr).1
  have hsubset : neighbors n adj r ⊆ (membersIdx n minPts adj c).toFinset := by
    intro p hp
    have hlab := label_of_mem_neighbors_rep hsym hrefl h3 hr hp
    rw [hcid] at hlab
    simp only [membersIdx, List.mem_toFinset, List.mem_filter, List.mem_range]
    exact ⟨(mem_neighbors.mp hp).1, by simp [hlab]⟩
  calc minPts ≤ (neighbors n adj r).card := hrcore.2
    _ ≤ (membersIdx n minPts adj c).toFinset.card := Finset.card_le_card hsubset
    _ = (membersIdx n minPts adj c).length :=
        List.toFinset_card_of_nodup nodup_membersIdx

end Lemmas

end DBSCAN

/-! ### The analyzer methods -/

/-- Population mean of a list of reals (`DataFrame.mean` over a column with
no missing values, and the centering step of StandardScaler). -/
def listMean (l : List ℝ) : ℝ := l.sum / l.length

/-- The StandardScaler scale of one dimension: the population standard
deviation, with an exact zero replaced by `1`
(`_handle_zeros_in_scale`). -/
def scalerScale (l : List ℝ) : ℝ :=
  let sd := Real.sqrt ((l.map (fun x => (x - listMean l) ^ 2)).sum / l.length)
  if sd = 0 then 1 else sd

/-- The velocity of DataFrame row `i` of the window. -/
def rowVel (w : List SatellitePosition) (i : ℕ) : ℝ :=
  (w.getD i default).velocity

/-- The `vel_change` column without its leading `NaN`: the `n - 1`
first differences of the speed series. -/
def velChanges (w : List SatellitePosition) : List ℝ :=
  (List.range (w.length - 1)).map (fun i => rowVel w (i + 1) - rowVel w i)

/-- `df['vel_change'].mean()` — pandas skips the `NaN` of row 0, so the
divisor is the number of differences. -/
def velMean (w : List SatellitePosition) : ℝ :=
  (velChanges w).sum / ((w.length - 1 : ℕ) : ℝ)

/-- `df['vel_change'].std()` — the pandas sample standard deviation over
the `n - 1` non-`NaN` differences (divisor `count - 1 = n - 2`). -/
def velStd (w : List SatellitePosition) : ℝ :=
  Real.sqrt (((velChanges w).map (fun d => (d - velMean w) ^ 2)).sum /
    ((w.length - 2 : ℕ) : ℝ))

/-- The rows of the anomaly mask
`abs(df['vel_change'] - mean) > 2 * std`: row `0` carries `NaN` and
compares false, hence the `1 ≤ i` conjunct. -/
def velAnomalyIdx (w : List SatellitePosition) : List ℕ :=
  (List.range w.length).filter
    (fun i => 1 ≤ i ∧ |rowVel w i - rowVel w (i - 1) - velMean w| > 2 * velStd w)

/-- The VELOCITY_ANOMALY event built for flagged row `i`. -/
def mkVelEvent (pyFormat : ℕ → ℝ → String) (sat_id : ℤ)
    (w : List SatellitePosition) (i : ℕ) : ThreatEvent :=
  { id := "VEL_ANOMALY_" ++ toString sat_id ++ "_" ++
      toString (w.getD i default).timestamp
    timestamp := (w.getD i default).timestamp
    source_lat := (w.getD i default).latitude
    source_lon := (w.getD i default).longitude
    target_lat := (w.getD i default).latitude
    target_lon := (w.getD i default).longitude
    threat_type := "VELOCITY_ANOMALY"
    severity := "MEDIUM"
    satellite_id := some sat_id
    description := "Unusual velocity change detected: " ++
      pyFormat 2 (rowVel w i - rowVel w (i - 1)) ++ " km/s" }

/-- `_detect_velocity_anomalies`.  The rows of the DataFrame are the window
`w`; `vel_change` of row `i ≥ 1` is `rowVel w i - rowVel w (i-1)`. -/
def detect_velocity_anomalies (pyFormat : ℕ → ℝ → String)
    (w : List SatellitePosition) (sat_id : ℤ) : List ThreatEvent :=
  if w.length < 5 then []
  else (velAnomalyIdx w).map (mkVelEvent pyFormat sat_id w)

/-- One standardized coordinate of the scaled feature matrix. -/
def scaledCoord (l : List ℝ) (i : ℕ) : ℝ :=
  (l.getD i 0 - listMean l) / scalerScale l

/-- The `eps = 0.5` adjacency on the standardized (lat, lon, alt) rows of
the window. -/
def trajAdj (w : List SatellitePosition) (i j : ℕ) : Prop :=
  i < w.length ∧ j < w.length ∧
  Real.sqrt
    ((scaledCoord (w.map SatellitePosition.latitude) i -
        scaledCoord (w.map SatellitePosition.latitude) j) ^ 2 +
      (scaledCoord (w.map SatellitePosition.longitude) i -
        scaledCoord (w.map SatellitePosition.longitude) j) ^ 2 +
      (scaledCoord (w.map SatellitePosition.altitude) i -
        scaledCoord (w.map SatellitePosition.altitude) j) ^ 2) ≤ 0.5

/-- The TRAJECTORY_ANOMALY event built for noise row `i`. -/
def mkTrajEvent (pyFormat : ℕ → ℝ → String) (sat_id : ℤ)
    (w : List SatellitePosition) (i : ℕ) : ThreatEvent :=
  { id := "TRAJ_ANOMALY_" ++ toString sat_id ++ "_" ++
      toString (w.getD i default).timestamp
    timestamp := (w.getD i default).timestamp
    source_lat := (w.getD i default).latitude
    source_lon := (w.getD i default).longitude
    target_lat := (w.getD i default).latitude
    target_lon := (w.getD i default).longitude
    threat_type := "TRAJECTORY_ANOMALY"
    severity := "HIGH"
    satellite_id := some sat_id
    description := "Anomalous trajectory detected at position (" ++
      pyFormat 2 (w.getD i default).latitude ++ ", " ++
      pyFormat 2 (w.getD i default).longitude ++ ")" }

/-- `_detect_trajectory_anomalies`: StandardScaler over the
(lat, lon, alt) columns of the window, DBSCAN with `eps = 0.5` and
`min_samples = 3`, one HIGH event per noise point (`labels == -1`). -/
def detect_trajectory_anomalies (pyFormat : ℕ → ℝ → String)
    (w : List SatellitePosition) (sat_id : ℤ) : List ThreatEvent :=
  if w.length < 10 then []
  else
    ((List.range w.length).filter
        (fun i => DBSCAN.label w.length 3 (trajAdj w) i = none)).map
      (mkTrajEvent pyFormat sat_id w)

/-- The PROXIMITY_THREAT event built for one close pair. -/
def mkProxEvent (pyFormat : ℕ → ℝ → String) (sat_id other_id : ℤ)
    (current_pos other_pos : SatellitePosition) : ThreatEvent :=
  { id := "PROXIMITY_THREAT_" ++ toString sat_id ++ "_" ++
      toString other_id ++ "_" ++ toString current_pos.timestamp
    timestamp := current_pos.timestamp
    source_lat := current_pos.latitude
    source_lon := current_pos.longitude
    target_lat := other_pos.latitude
    target_lon := other_pos.longitude
    threat_type := "PROXIMITY_THREAT"
    severity := "CRITICAL"
    satellite_id := some sat_id
    description := "Collision risk with satellite " ++ toString other_id ++
      ": " ++ pyFormat 1 (calculate_3d_distance current_pos other_pos) ++
      "km separation" }

/-- `_detect_proximity_threats`: the triggering satellite's current sample
against the latest sample of every other satellite with history; a CRITICAL
event below 100 km. -/
def detect_proximity_threats (pyFormat : ℕ → ℝ → String) (s : AnalyzerState)
    (sat_id : ℤ) (current_pos : SatellitePosition) : List ThreatEvent :=
  s.satellite_positions.flatMap (fun entry =>
    if entry.1 = sat_id ∨ entry.2 = [] then []
    else
      match entry.2.getLast? with
      | none => []
      | some other_pos =>
        if calculate_3d_distance current_pos other_pos < 100 then
          [mkProxEvent pyFormat sat_id entry.1 current_pos other_pos]
        else [])

set_option linter.unusedVariables false in
/-- `analyze_satellite_anomalies`.  Note that, exactly as in the source, the
`positions` argument is never read: the loop ranges over every stored
satellite, skips histories shorter than 10 samples, and runs the three
detectors on the last-50 window (proximity on the latest sample). -/
def analyze_satellite_anomalies (pyFormat : ℕ → ℝ → String)
    (positions : List SatellitePosition) (s : AnalyzerState) :
    List ThreatEvent :=
  s.satellite_positions.flatMap (fun entry =>
    if entry.2.length < 10 then []
    else
      let window := lastN 50 entry.2
      detect_velocity_anomalies pyFormat window entry.1 ++
      detect_trajectory_anomalies pyFormat window entry.1 ++
      match entry.2.getLast? with
      | none => []
      | some last_pos => detect_proximity_threats pyFormat s entry.1 last_pos)

/-- One Dict of the `generate_threat_zones` result list. -/
structure ThreatZone where
  id : String
  center_lat : ℝ
  center_lon : ℝ
  radius : ℝ
  severity : String
  threat_count : ℕ
  dominant_threat : String

/-- The `severity_scores` dict; `Series.map` yields `NaN` (here `none`) for
a key outside the dict. -/
def severity_scores (sev : String) : Option ℝ :=
  if sev = "LOW" then some 1
  else if sev = "MEDIUM" then some 2
  else if sev = "HIGH" then some 3
  else if sev = "CRITICAL" then some 4
  else none

/-- pandas `Series.mode().iloc[0]`: among the values attaining the maximal
multiplicity, the smallest one in sort order (`mode` returns a sorted
series).  Returns `""` on an empty series (never reached: every cluster is
nonempty). -/
def seriesModeHead (l : List String) : String :=
  match l.filter
      (fun v => l.count v = (l.map (fun v => l.count v)).foldr max 0) with
  | [] => ""
  | v :: vs => vs.foldl min v

/-- The severity bucketing of a zone from the member severity scores.  An
empty score list makes the pandas mean `NaN`; every `NaN` comparison is
false, so the chained conditional expression lands on `CRITICAL`. -/
def zone_severity_of (scores : List ℝ) : String :=
  if scores = [] then "CRITICAL"
  else
    let avg := scores.sum / (scores.length : ℝ)
    if avg < 1.5 then "LOW"
    else if avg < 2.5 then "MEDIUM"
    else if avg < 3.5 then "HIGH"
    else "CRITICAL"

/-- The event window clustered by `generate_threat_zones`: the last 100
stored threat events. -/
def zoneRows (s : AnalyzerState) : List ThreatEvent :=
  lastN 100 s.threat_events

/-- The `eps = 5` adjacency on the raw (source_lat, source_lon) points of
the event window. -/
def zoneAdj (s : AnalyzerState) (i j : ℕ) : Prop :=
  i < (zoneRows s).length ∧ j < (zoneRows s).length ∧
  Real.sqrt
    ((((zoneRows s).getD i default).source_lat -
        ((zoneRows s).getD j default).source_lat) ^ 2 +
      (((zoneRows s).getD i default).source_lon -
        ((zoneRows s).getD j default).source_lon) ^ 2) ≤ 5

/-- The member events of zone cluster `c`
(`threat_df[clusters == cluster_id]`), in row order. -/
def zoneMembers (s : AnalyzerState) (c : ℕ) : List ThreatEvent :=
  (DBSCAN.membersIdx (zoneRows s).length 3 (zoneAdj s) c).map
    (fun i => (zoneRows s).getD i default)

/-- The zone Dict built for cluster `c`. -/
def mkThreatZone (s : AnalyzerState) (c : ℕ) : ThreatZone :=
  let members := zoneMembers s c
  { id := "ZONE_" ++ toString c
    center_lat := (members.map ThreatEvent.source_lat).sum / (members.length : ℝ)
    center_lon := (members.map ThreatEvent.source_lon).sum / (members.length : ℝ)
    radius := 500
    severity := zone_severity_of
      (members.filterMap (fun t => severity_scores t.severity))
    threat_count := members.length
    dominant_threat := seriesModeHead (members.map ThreatEvent.threat_type) }

/-- `generate_threat_zones`: DBSCAN (`eps = 5`, `min_samples = 3`) over the
raw (lat, lon) of the last 100 threat events; one zone per non-noise
cluster id (`np.unique` enumerates them as `0, ..., k-1`). -/
def generate_threat_zones (s : AnalyzerState) : List ThreatZone :=
  if (zoneRows s).length < 3 then []
  else
    (List.range (DBSCAN.numClusters (zoneRows s).length 3 (zoneAdj s))).map
      (mkThreatZone s)

/-- One Dict of the `generate_communication_paths` result list. -/
structure CommunicationPath where
  id : String
  source_id : ℤ
  target_id : ℤ
  source_lat : ℝ
  source_lon : ℝ
  target_lat : ℝ
  target_lon : ℝ
  distance : ℝ
  quality : String
  active : Bool

/-- The `current_positions` dict: latest sample of every satellite with a
nonempty history, in dict order. -/
def currentPositions (s : AnalyzerState) : List (ℤ × SatellitePosition) :=
  s.satellite_positions.filterMap (fun entry =>
    (entry.2.getLast?).map (fun p => (entry.1, p)))

/-- The path Dict built for a pair of current positions. -/
def mkCommPath (x y : ℤ × SatellitePosition) : CommunicationPath :=
  { id := "LINK_" ++ toString x.1 ++ "_" ++ toString y.1
    source_id := x.1
    target_id := y.1
    source_lat := x.2.latitude
    source_lon := x.2.longitude
    target_lat := y.2.latitude
    target_lon := y.2.longitude
    distance := calculate_3d_distance x.2 y.2
    quality := if calculate_3d_distance x.2 y.2 < 500 then "EXCELLENT"
      else if calculate_3d_distance x.2 y.2 < 1000 then "GOOD" else "POOR"
    active := true }

/-- `generate_communication_paths`: one path per unordered pair of
satellites with nonempty history whose latest samples are closer than
2000 km, quality tiered at 500 / 1000 km, `active` always true. -/
def generate_communication_paths (s : AnalyzerState) : List CommunicationPath :=
  (upairs (currentPositions s)).filterMap (fun pq =>
    if calculate_3d_distance pq.1.2 pq.2.2 < 2000 then
      some (mkCommPath pq.1 pq.2)
    else none)

/-- Append one sample to a per-satellite history, keeping only the last
100 entries (`if len > 100: ... = ...[-100:]`). -/
def appendTrimmed (h : List SatellitePosition) (p : SatellitePosition) :
    List SatellitePosition :=
  let h2 := h ++ [p]
  if 100 < h2.length then lastN 100 h2 else h2

/-- The dict mutation of `update_satellite_position`: a missing key is
created (at the end of the iteration order), then the sample is appended
and the history trimmed. -/
def updateHistory (p : SatellitePosition) :
    List (ℤ × List SatellitePosition) → List (ℤ × List SatellitePosition)
  | [] => [(p.satellite_id, appendTrimmed [] p)]
  | e :: rest =>
    if e.1 = p.satellite_id then (e.1, appendTrimmed e.2 p) :: rest
    else e :: updateHistory p rest

/-- `update_satellite_position`. -/
def update_satellite_position (s : AnalyzerState) (p : SatellitePosition) :
    AnalyzerState :=
  { s with satellite_positions := updateHistory p s.satellite_positions }

/-- `add_threat_event`: append to the global history, keeping only the last
1000 events. -/
def add_threat_event (s : AnalyzerState) (t : ThreatEvent) : AnalyzerState :=
  { s with threat_events :=
      let l := s.threat_events ++ [t]
      if 1000 < l.length then lastN 1000 l else l }

/-- Dict lookup in the association list. -/
def lookupKey : List (ℤ × List SatellitePosition) → ℤ →
    Option (List SatellitePosition)
  | [], _ => none
  | e :: rest, k => if e.1 = k then some e.2 else lookupKey rest k

/-- A recorded mutation: either a position update or a threat event. -/
inductive RecordOp where
  | recordPosition (p : SatellitePosition)
  | recordEvent (t : ThreatEvent)

def applyOp (s : AnalyzerState) : RecordOp → AnalyzerState
  | .recordPosition p => update_satellite_position s p
  | .recordEvent t => add_threat_event s t

/-- Run a sequence of record operations against a fresh analyzer. -/
def applyOps (ops : List RecordOp) : AnalyzerState :=
  ops.foldl applyOp initState

/-! ### Auxiliary evaluation lemmas -/

/-- For two positions on the equator at the prime meridian the computed 3D
distance degenerates to the altitude difference. -/
theorem calculate_3d_distance_equator (p q : SatellitePosition)
    (hp1 : p.latitude = 0) (hp2 : p.longitude = 0)
    (hq1 : q.latitude = 0) (hq2 : q.longitude = 0) :
    calculate_3d_distance p q = |q.altitude - p.altitude| := by
  simp only [calculate_3d_distance, hp1, hp2, hq1, hq2, zero_mul, zero_div,
    Real.cos_zero, Real.sin_zero, mul_one, mul_zero, sub_self]
  rw [show (6371 + q.altitude - (6371 + p.altitude)) ^ 2 + 0 ^ 2 + 0 ^ 2 =
    (q.altitude - p.altitude) ^ 2 from by ring, Real.sqrt_sq_eq_abs]

/-! ### Claims -/

/-- C9: for every two position samples `A` and `B` the computed 3D distance
is symmetric: `distance(A, B) = distance(B, A)`. -/
theorem C9_distance_symmetric (A B : SatellitePosition) :
    calculate_3d_distance A B = calculate_3d_distance B A :=
  calculate_3d_distance_comm A B

/-- C5: operations below their minimum input count return the empty list
instead of raising: the velocity detector with fewer than 5 windowed
samples, the trajectory detector with fewer than 10 windowed samples, and
threat-zone generation with fewer than 3 events in its window. -/
theorem C5_below_minimum_noop (pyFormat : ℕ → ℝ → String) :
    (∀ (w : List SatellitePosition) (sat_id : ℤ), w.length < 5 →
      detect_velocity_anomalies pyFormat w sat_id = []) ∧
    (∀ (w : List SatellitePosition) (sat_id : ℤ), w.length < 10 →
      detect_trajectory_anomalies pyFormat w sat_id = []) ∧
    (∀ s : AnalyzerState, (zoneRows s).length < 3 →
      generate_threat_zones s = []) := by
  refine ⟨fun w sat_id h => ?_, fun w sat_id h => ?_, fun s h => ?_⟩
  · simp [detect_velocity_anomalies, h]
  · simp [detect_trajectory_anomalies, h]
  · simp [generate_threat_zones, h]

/-- Witness for C5 at concrete inputs. -/
theorem C5_below_minimum_noop_witness :
    detect_velocity_anomalies (fun _ _ => "") [] 0 = [] ∧
    detect_trajectory_anomalies (fun _ _ => "") [] 0 = [] ∧
    generate_threat_zones initState = [] :=
  ⟨(C5_below_minimum_noop (fun _ _ => "")).1 [] 0 (by simp),
   (C5_below_minimum_noop (fun _ _ => "")).2.1 [] 0 (by simp),
   (C5_below_minimum_noop (fun _ _ => "")).2.2 initState
     (by simp [zoneRows, initState, lastN])⟩

/-- C8: for a window with constant speed the velocity detector emits no
event: the first differences are all zero, their standard deviation is
zero, and no row exceeds the threshold. -/
theorem C8_constant_speed_no_anomaly (pyFormat : ℕ → ℝ → String)
    (w : List SatellitePosition) (sat_id : ℤ)
    (hconst : ∀ p ∈ w, ∀ q ∈ w, p.velocity = q.velocity) :
    detect_velocity_anomalies pyFormat w sat_id = [] := by
  by_cases h5 : w.length < 5
  · simp [detect_velocity_anomalies, h5]
  · have hvel : ∀ i < w.length, ∀ j < w.length, rowVel w i = rowVel w j := by
      intro i hi j hj
      unfold rowVel
      apply hconst
      · rw [List.getD_eq_getElem _ _ hi]
        exact List.getElem_mem _
      · rw [List.getD_eq_getElem _ _ hj]
        exact List.getElem_mem _
    have hchanges : ∀ x ∈ velChanges w, x = 0 := by
      intro x hx
      unfold velChanges at hx
      obtain ⟨i, hi, rfl⟩ := List.mem_map.mp hx
      have hi' := List.mem_range.mp hi
      rw [hvel (i + 1) (by omega) i (by omega), sub_self]
    have hmean : velMean w = 0 := by
      rw [velMean, List.sum_eq_zero hchanges, zero_div]
    have hstd : velStd w = 0 := by
      rw [velStd]
      have hsq : ∀ x ∈ (velChanges w).map (fun d => (d - velMean w) ^ 2), x = 0 := by
        intro x hx
        obtain ⟨d, hd, rfl⟩ := List.mem_map.mp hx
        rw [hchanges d hd, hmean, sub_zero]
        norm_num
      rw [List.sum_eq_zero hsq, zero_div, Real.sqrt_zero]
    have hidx : velAnomalyIdx w = [] := by
      rw [velAnomalyIdx]
      apply List.filter_eq_nil_iff.mpr
      intro i hi
      have hi' := List.mem_range.mp hi
      simp only [decide_eq_true_eq, not_and, not_lt]
      intro h1
      rw [hmean, hstd, sub_zero, hvel i hi' (i - 1) (by omega), sub_self,
        abs_zero, mul_zero]
    simp [detect_velocity_anomalies, h5, hidx]

theorem appendTrimmed_length_le {h : List SatellitePosition} {p : SatellitePosition}
    (hh : h.length ≤ 100) : (appendTrimmed h p).length ≤ 100 := by
  simp only [appendTrimmed]
  split
  · simp only [lastN_length, List.length_append, List.length_singleton]
    omega
  · rename_i hc
    simp only [List.length_append, List.length_singleton] at hc ⊢
    omega

theorem updateHistory_length_le {l : List (ℤ × List SatellitePosition)}
    {p : SatellitePosition} (hl : ∀ e ∈ l, e.2.length ≤ 100) :
    ∀ e ∈ updateHistory p l, e.2.length ≤ 100 := by
  induction l with
  | nil =>
    intro e he
    simp only [updateHistory, List.mem_singleton] at he
    subst he
    show (appendTrimmed [] p).length ≤ 100
    refine appendTrimmed_length_le ?_
    simp
  | cons a rest ih =>
    intro e he
    simp only [updateHistory] at he
    split at he
    · rcases List.mem_cons.mp he with rfl | he'
      · exact appendTrimmed_length_le (hl a (List.mem_cons_self a rest))
      · exact hl e (List.mem_cons_of_mem a he')
    · rcases List.mem_cons.mp he with rfl | he'
      · exact hl e (List.mem_cons_self e rest)
      · exact ih (fun x hx => hl x (List.mem_cons_of_mem a hx)) e he'

/-- Both history caps of the store. -/
def StateBounded (s : AnalyzerState) : Prop :=
  (∀ e ∈ s.satellite_positions, e.2.length ≤ 100) ∧
  s.threat_events.length ≤ 1000

theorem applyOp_bounded {s : AnalyzerState} (hs : StateBounded s)
    (op : RecordOp) : StateBounded (applyOp s op) := by
  cases op with
  | recordPosition p => exact ⟨updateHistory_length_le hs.1, hs.2⟩
  | recordEvent t =>
    refine ⟨hs.1, ?_⟩
    show (add_threat_event s t).threat_events.length ≤ 1000
    unfold add_threat_event
    simp only
    split
    · simp only [lastN_length, List.length_append, List.length_singleton]
      omega
    · rename_i hc
      simp only [List.length_append, List.length_singleton] at hc ⊢
      omega

theorem foldl_applyOp_bounded :
    ∀ (ops : List RecordOp) (s : AnalyzerState), StateBounded s →
      StateBounded (ops.foldl applyOp s) := by
  intro ops
  induction ops with
  | nil => exact fun s hs => hs
  | cons op rest ih => exact fun s hs => ih _ (applyOp_bounded hs op)

/-- Appending then trimming commutes with taking the last 100 samples. -/
theorem appendTrimmed_lastN (l : List SatellitePosition) (p : SatellitePosition) :
    appendTrimmed (lastN 100 l) p = lastN 100 (l ++ [p]) := by
  unfold appendTrimmed lastN
  rcases le_or_lt l.length 99 with hl | hl
  · have h1 : l.length - 100 = 0 := by omega
    have h2 : (l ++ [p]).length - 100 = 0 := by
      simp only [List.length_append, List.length_singleton]
      omega
    rw [h1, List.drop_zero, h2, List.drop_zero,
      if_neg (by simp only [List.length_append, List.length_singleton]; omega)]
  · have hd : (l.drop (l.length - 100)).length = 100 := by
      simp only [List.length_drop]
      omega
    rw [if_pos (by simp only [List.length_append, List.length_singleton, hd]; omega)]
    have h3 : (l.drop (l.length - 100) ++ [p]).length - 100 = 1 := by
      simp only [List.length_append, List.length_singleton, hd]
    have h4 : (l ++ [p]).length - 100 = l.length - 99 := by
      simp only [List.length_append, List.length_singleton]
      omega
    have e1 : (l.drop (l.length - 100) ++ [p]).drop 1 =
        l.drop (l.length - 99) ++ [p] := by
      rw [List.drop_append_of_le_length (by rw [hd]; omega), List.drop_drop]
      have harith : l.length - 100 + 1 = l.length - 99 := by omega
      rw [harith]
    have e2 : (l ++ [p]).drop (l.length - 99) =
        l.drop (l.length - 99) ++ [p] :=
      List.drop_append_of_le_length (by omega)
    rw [h3, h4, e1, e2]

theorem foldl_appendTrimmed (l : List SatellitePosition) :
    l.foldl appendTrimmed [] = lastN 100 l := by
  induction l using List.reverseRecOn with
  | nil => rfl
  | append_singleton l p ih =>
    rw [List.foldl_append, List.foldl_cons, List.foldl_nil, ih,
      appendTrimmed_lastN]

theorem foldl_recordPositions (sid : ℤ) :
    ∀ (l : List SatellitePosition) (s : AnalyzerState)
      (h : List SatellitePosition),
      (∀ p ∈ l, p.satellite_id = sid) →
      s.satellite_positions = [(sid, h)] →
      ((l.map RecordOp.recordPosition).foldl applyOp s).satellite_positions =
        [(sid, l.foldl appendTrimmed h)] := by
  intro l
  induction l with
  | nil =>
    intro s h _ hs
    simpa using hs
  | cons p rest ih =>
    intro s h hall hs
    simp only [List.map_cons, List.foldl_cons]
    apply ih _ (appendTrimmed h p)
      (fun q hq => hall q (List.mem_cons_of_mem p hq))
    show (update_satellite_position s p).satellite_positions = _
    have hp : p.satellite_id = sid := hall p (List.mem_cons_self p rest)
    simp [update_satellite_position, hs, updateHistory, hp]

/-- Appending then trimming to the last `k` entries commutes with taking
the last `k` entries of everything recorded so far (generic cap). -/
theorem trim_append_lastN {α : Type} (k : ℕ) (hk : 0 < k)
    (l : List α) (p : α) :
    (if k < (lastN k l ++ [p]).length then lastN k (lastN k l ++ [p])
     else lastN k l ++ [p]) = lastN k (l ++ [p]) := by
  unfold lastN
  rcases le_or_lt l.length (k - 1) with hl | hl
  · have h1 : l.length - k = 0 := by omega
    have h2 : (l ++ [p]).length - k = 0 := by
      simp only [List.length_append, List.length_singleton]
      omega
    rw [h1, List.drop_zero, h2, List.drop_zero,
      if_neg (by simp only [List.length_append, List.length_singleton]; omega)]
  · have hd : (l.drop (l.length - k)).length = k := by
      simp only [List.length_drop]
      omega
    rw [if_pos (by simp only [List.length_append, List.length_singleton, hd]; omega)]
    have h3 : (l.drop (l.length - k) ++ [p]).length - k = 1 := by
      simp only [List.length_append, List.length_singleton, hd]
      omega
    have h4 : (l ++ [p]).length - k = l.length - (k - 1) := by
      simp only [List.length_append, List.length_singleton]
      omega
    have e1 : (l.drop (l.length - k) ++ [p]).drop 1 =
        l.drop (l.length - (k - 1)) ++ [p] := by
      rw [List.drop_append_of_le_length (by rw [hd]; omega), List.drop_drop]
      have harith : l.length - k + 1 = l.length - (k - 1) := by omega
      rw [harith]
    have e2 : (l ++ [p]).drop (l.length - (k - 1)) =
        l.drop (l.length - (k - 1)) ++ [p] :=
      List.drop_append_of_le_length (by omega)
    rw [h3, h4, e1, e2]

/-- The threat event recorded by an operation, if any. -/
def eventOf : RecordOp → Option ThreatEvent
  | .recordPosition _ => none
  | .recordEvent t => some t

/-- The global threat-event history after any operation sequence is the
last-1000 suffix, in recording order, of all events recorded so far. -/
theorem foldl_events_lastN :
    ∀ (ops : List RecordOp) (es : List ThreatEvent) (s : AnalyzerState),
      s.threat_events = lastN 1000 es →
      (ops.foldl applyOp s).threat_events =
        lastN 1000 (es ++ ops.filterMap eventOf) := by
  intro ops
  induction ops with
  | nil =>
    intro es s hs
    simpa using hs
  | cons op rest ih =>
    intro es s hs
    rw [List.foldl_cons]
    cases op with
    | recordPosition p =>
      rw [show (RecordOp.recordPosition p :: rest).filterMap eventOf =
        rest.filterMap eventOf from by simp [List.filterMap_cons, eventOf]]
      refine ih es _ ?_
      show (update_satellite_position s p).threat_events = _
      exact hs
    | recordEvent t =>
      have hstep : (applyOp s (RecordOp.recordEvent t)).threat_events =
          lastN 1000 (es ++ [t]) := by
        show (add_threat_event s t).threat_events = _
        simp only [add_threat_event]
        rw [hs]
        exact trim_append_lastN 1000 (by norm_num) es t
      rw [show (RecordOp.recordEvent t :: rest).filterMap eventOf =
        t :: rest.filterMap eventOf from by simp [List.filterMap_cons, eventOf]]
      have hrec := ih (es ++ [t]) _ hstep
      rw [hrec, List.append_assoc, List.singleton_append]

/-- C7: after any sequence of record operations every per-satellite history
has at most 100 samples and the global event history at most 1000 events;
recording a list of positions for one satellite leaves exactly its last-100
suffix in recording order (FIFO eviction), for 105 recorded positions that
suffix has length exactly 100 and equals the list with its oldest 5 entries
dropped, and the global event history is always exactly the last-1000
suffix, in recording order, of the events recorded so far (FIFO eviction of
the oldest). -/
theorem C7_store_bounded_fifo :
    (∀ ops : List RecordOp,
      (∀ e ∈ (applyOps ops).satellite_positions, e.2.length ≤ 100) ∧
      (applyOps ops).threat_events.length ≤ 1000) ∧
    (∀ (sid : ℤ) (l : List SatellitePosition),
      (∀ p ∈ l, p.satellite_id = sid) → l ≠ [] →
      lookupKey (applyOps (l.map RecordOp.recordPosition)).satellite_positions
        sid = some (lastN 100 l)) ∧
    (∀ l : List SatellitePosition, l.length = 105 →
      (lastN 100 l).length = 100 ∧ lastN 100 l = l.drop 5) ∧
    (∀ ops : List RecordOp,
      (applyOps ops).threat_events = lastN 1000 (ops.filterMap eventOf)) := by
  refine ⟨?_, ?_, ?_, ?_⟩
  · intro ops
    exact foldl_applyOp_bounded ops initState ⟨by simp [initState], by simp [initState]⟩
  · intro sid l hall hne
    match l, hne with
    | p :: rest, _ =>
      have hp : p.satellite_id = sid := hall p (List.mem_cons_self p rest)
      have hstep :
          (applyOp initState (RecordOp.recordPosition p)).satellite_positions =
            [(sid, [p])] := by
        show (update_satellite_position initState p).satellite_positions = _
        simp [update_satellite_position, initState, updateHistory, hp,
          appendTrimmed, lastN]
      have := foldl_recordPositions sid rest
        (applyOp initState (RecordOp.recordPosition p)) [p]
        (fun q hq => hall q (List.mem_cons_of_mem p hq)) hstep
      have hfold : (p :: rest).foldl appendTrimmed [] =
          rest.foldl appendTrimmed [p] := by
        rw [List.foldl_cons]
        have hap : appendTrimmed [] p = [p] := by simp [appendTrimmed]
        rw [hap]
      rw [applyOps, List.map_cons, List.foldl_cons, this, ← hfold,
        foldl_appendTrimmed]
      simp [lookupKey]
  · intro l hlen
    constructor
    · simp only [lastN_length, hlen]
    · rw [lastN, hlen]
  · intro ops
    exact foldl_events_lastN ops [] initState rfl

/-- Concrete list of 105 same-satellite positions for the C7 witness. -/
def posList105 : List SatellitePosition :=
  (List.range 105).map (fun (i : ℕ) =>
    { satellite_id := 1, latitude := 0, longitude := 0, altitude := 500,
      velocity := 7.5, timestamp := (i : ℤ) })

theorem posList105_length : posList105.length = 105 := by
  rw [posList105, List.length_map, List.length_range]

theorem posList105_ne_nil : posList105 ≠ [] := by
  intro h
  have := posList105_length
  rw [h] at this
  simp at this

/-- A concrete externally-injected threat event for the C7 witness. -/
def evDebris : ThreatEvent :=
  { id := "SIM_0", timestamp := 0, source_lat := 10, source_lon := 20,
    target_lat := 30, target_lon := 40, threat_type := "DEBRIS_FIELD",
    severity := "LOW", satellite_id := none, description := "" }

/-- A concrete interleaved position update for the C7 witness. -/
def evPos : SatellitePosition :=
  { satellite_id := 5, latitude := 0, longitude := 0, altitude := 500,
    velocity := 7.5, timestamp := 2 }

/-- A second concrete threat event for the C7 witness. -/
def evComm : ThreatEvent :=
  { id := "SIM_1", timestamp := 1, source_lat := 1, source_lon := 2,
    target_lat := 3, target_lon := 4, threat_type := "COMMUNICATION_LOSS",
    severity := "HIGH", satellite_id := some 3, description := "" }

/-- Witness for C7: recording the concrete 105-sample list leaves the
last-100 suffix, of length exactly 100, equal to dropping the 5 oldest; and
a concrete mixed sequence leaves exactly its recorded events in order. -/
theorem C7_store_bounded_fifo_witness :
    lookupKey
        (applyOps (posList105.map RecordOp.recordPosition)).satellite_positions
        1 = some (lastN 100 posList105) ∧
    (lastN 100 posList105).length = 100 ∧
    lastN 100 posList105 = posList105.drop 5 ∧
    (applyOps [RecordOp.recordEvent evDebris,
        RecordOp.recordPosition evPos,
        RecordOp.recordEvent evComm]).threat_events =
      lastN 1000 ([RecordOp.recordEvent evDebris,
        RecordOp.recordPosition evPos,
        RecordOp.recordEvent evComm].filterMap eventOf) :=
  ⟨C7_store_bounded_fifo.2.1 1 posList105
      (by
        intro p hp
        simp only [posList105, List.mem_map] at hp
        obtain ⟨i, _, rfl⟩ := hp
        rfl)
      posList105_ne_nil,
   (C7_store_bounded_fifo.2.2.1 posList105 posList105_length).1,
   (C7_store_bounded_fifo.2.2.1 posList105 posList105_length).2,
   C7_store_bounded_fifo.2.2.2 [RecordOp.recordEvent evDebris,
     RecordOp.recordPosition evPos, RecordOp.recordEvent evComm]⟩

theorem map_fst_currentPositions_sublist (s : AnalyzerState) :
    ((currentPositions s).map Prod.fst).Sublist
      (s.satellite_positions.map Prod.fst) := by
  unfold currentPositions
  induction s.satellite_positions with
  | nil => simp
  | cons a rest ih =>
    cases h : a.2.getLast? with
    | none =>
      simp only [List.filterMap_cons, h, Option.map_none', List.map_cons]
      exact ih.cons _
    | some p =>
      simp only [List.filterMap_cons, h, Option.map_some', List.map_cons]
      exact ih.cons₂ _

theorem snd_eq_of_mem_of_nodup_fst :
    ∀ {l : List (ℤ × SatellitePosition)}, (l.map Prod.fst).Nodup →
      ∀ {k : ℤ} {p q : SatellitePosition}, (k, p) ∈ l → (k, q) ∈ l → p = q := by
  intro l
  induction l with
  | nil => intro _ k p q hp; cases hp
  | cons a rest ih =>
    intro hnd k p q hp hq
    simp only [List.map_cons, List.nodup_cons] at hnd
    rcases List.mem_cons.mp hp with heqp | hp'
    · rcases List.mem_cons.mp hq with heqq | hq'
      · rw [← heqp] at heqq
        exact (Prod.mk.injEq _ _ _ _).mp heqq.symm |>.2
      · exfalso
        apply hnd.1
        rw [← heqp]
        exact List.mem_map.mpr ⟨(k, q), hq', rfl⟩
    · rcases List.mem_cons.mp hq with heqq | hq'
      · exfalso
        apply hnd.1
        rw [← heqq]
        exact List.mem_map.mpr ⟨(k, p), hp', rfl⟩
      · exact ih hnd.2 hp' hq'

theorem mem_generate_communication_paths {s : AnalyzerState}
    {cp : CommunicationPath} :
    cp ∈ generate_communication_paths s ↔
      ∃ x y, (x, y) ∈ upairs (currentPositions s) ∧
        calculate_3d_distance x.2 y.2 < 2000 ∧ cp = mkCommPath x y := by
  unfold generate_communication_paths
  rw [List.mem_filterMap]
  constructor
  · rintro ⟨⟨x, y⟩, hmem, heq⟩
    by_cases hd : calculate_3d_distance x.2 y.2 < 2000
    · rw [if_pos hd] at heq
      exact ⟨x, y, hmem, hd, (Option.some.injEq _ _ ▸ heq).symm⟩
    · rw [if_neg hd] at heq
      cases heq
  · rintro ⟨x, y, hmem, hd, rfl⟩
    exact ⟨(x, y), hmem, by rw [if_pos hd]⟩

/-- C6: for every unordered pair of satellites with a latest sample, a
CommunicationPath (always `active`) is produced exactly when their computed
3D distance is below 2000 km, with quality EXCELLENT below 500 km, GOOD in
[500, 1000) and POOR in [1000, 2000). -/
theorem C6_communication_paths (s : AnalyzerState)
    (hnd : (s.satellite_positions.map Prod.fst).Nodup)
    (a b : ℤ) (pa pb : SatellitePosition) (hab : a ≠ b)
    (ha : (a, pa) ∈ currentPositions s) (hb : (b, pb) ∈ currentPositions s) :
    ((∃ cp ∈ generate_communication_paths s,
        (cp.source_id = a ∧ cp.target_id = b) ∨
        (cp.source_id = b ∧ cp.target_id = a)) ↔
      calculate_3d_distance pa pb < 2000) ∧
    (∀ cp ∈ generate_communication_paths s,
      ((cp.source_id = a ∧ cp.target_id = b) ∨
       (cp.source_id = b ∧ cp.target_id = a)) →
      cp.distance = calculate_3d_distance pa pb ∧
      cp.quality = (if calculate_3d_distance pa pb < 500 then "EXCELLENT"
        else if calculate_3d_distance pa pb < 1000 then "GOOD" else "POOR") ∧
      cp.active = true) := by
  have hnd' : ((currentPositions s).map Prod.fst).Nodup :=
    (map_fst_currentPositions_sublist s).nodup hnd
  have hxa : ∀ x : ℤ × SatellitePosition, x ∈ currentPositions s →
      x.1 = a → x.2 = pa := by
    intro x hx h1
    refine snd_eq_of_mem_of_nodup_fst hnd' ?_ ha
    rw [← h1]
    exact hx
  have hxb : ∀ x : ℤ × SatellitePosition, x ∈ currentPositions s →
      x.1 = b → x.2 = pb := by
    intro x hx h1
    refine snd_eq_of_mem_of_nodup_fst hnd' ?_ hb
    rw [← h1]
    exact hx
  constructor
  · constructor
    · rintro ⟨cp, hcp, hids⟩
      obtain ⟨x, y, hpair, hd, rfl⟩ := mem_generate_communication_paths.mp hcp
      obtain ⟨hxmem, hymem⟩ := upairs_subset_pairs hpair
      rcases hids with ⟨h1, h2⟩ | ⟨h1, h2⟩
      · rw [← hxa x hxmem h1, ← hxb y hymem h2]
        exact hd
      · rw [← hxb x hxmem h1, ← hxa y hymem h2,
          calculate_3d_distance_comm]
        exact hd
    · intro hd
      have hne : (a, pa) ≠ (b, pb) := fun h => hab (congrArg Prod.fst h)
      rcases mem_upairs_of_mem ha hb hne with hpair | hpair
      · refine ⟨mkCommPath (a, pa) (b, pb),
          mem_generate_communication_paths.mpr ⟨_, _, hpair, hd, rfl⟩, ?_⟩
        exact Or.inl ⟨rfl, rfl⟩
      · refine ⟨mkCommPath (b, pb) (a, pa),
          mem_generate_communication_paths.mpr
            ⟨_, _, hpair, by rw [calculate_3d_distance_comm]; exact hd, rfl⟩, ?_⟩
        exact Or.inr ⟨rfl, rfl⟩
  · intro cp hcp hids
    obtain ⟨x, y, hpair, hd, rfl⟩ := mem_generate_communication_paths.mp hcp
    obtain ⟨hxmem, hymem⟩ := upairs_subset_pairs hpair
    rcases hids with ⟨h1, h2⟩ | ⟨h1, h2⟩
    · rw [show (mkCommPath x y).distance = calculate_3d_distance x.2 y.2 from rfl,
        show (mkCommPath x y).quality = (if calculate_3d_distance x.2 y.2 < 500
          then "EXCELLENT" else if calculate_3d_distance x.2 y.2 < 1000
          then "GOOD" else "POOR") from rfl,
        hxa x hxmem h1, hxb y hymem h2]
      exact ⟨rfl, rfl, rfl⟩
    · rw [show (mkCommPath x y).distance = calculate_3d_distance x.2 y.2 from rfl,
        show (mkCommPath x y).quality = (if calculate_3d_distance x.2 y.2 < 500
          then "EXCELLENT" else if calculate_3d_distance x.2 y.2 < 1000
          then "GOOD" else "POOR") from rfl,
        hxb x hxmem h1, hxa y hymem h2, calculate_3d_distance_comm pb pa]
      exact ⟨rfl, rfl, rfl⟩

/-- Current position of satellite 1 for the C6 witness (altitude 500 km at
the equator). -/
def pathPosA : SatellitePosition :=
  { satellite_id := 1, latitude := 0, longitude := 0, altitude := 500,
    velocity := 7.5, timestamp := 0 }

/-- Current position of satellite 2 for the C6 witness (altitude 2000 km at
the equator, hence at distance 1500 km from `pathPosA`). -/
def pathPosB : SatellitePosition :=
  { satellite_id := 2, latitude := 0, longitude := 0, altitude := 2000,
    velocity := 7.5, timestamp := 0 }

/-- Two-satellite store for the C6 witness. -/
def commState : AnalyzerState :=
  { threat_events := [], satellite_positions := [(1, [pathPosA]), (2, [pathPosB])] }

theorem commState_distance : calculate_3d_distance pathPosA pathPosB = 1500 := by
  rw [calculate_3d_distance_equator pathPosA pathPosB rfl rfl rfl rfl]
  show |(2000 : ℝ) - 500| = 1500
  norm_num

/-- Witness for C6 at a concrete two-satellite store 1500 km apart: the
instantiated equivalence and the POOR/active conclusions. -/
theorem C6_communication_paths_witness :
    calculate_3d_distance pathPosA pathPosB = 1500 ∧
    (((∃ cp ∈ generate_communication_paths commState,
        (cp.source_id = 1 ∧ cp.target_id = 2) ∨
        (cp.source_id = 2 ∧ cp.target_id = 1)) ↔
      calculate_3d_distance pathPosA pathPosB < 2000) ∧
    (∀ cp ∈ generate_communication_paths commState,
      ((cp.source_id = 1 ∧ cp.target_id = 2) ∨
       (cp.source_id = 2 ∧ cp.target_id = 1)) →
      cp.distance = calculate_3d_distance pathPosA pathPosB ∧
      cp.quality = (if calculate_3d_distance pathPosA pathPosB < 500
        then "EXCELLENT" else if calculate_3d_distance pathPosA pathPosB < 1000
        then "GOOD" else "POOR") ∧
      cp.active = true)) :=
  ⟨commState_distance,
   C6_communication_paths commState
    (by simp [commState])
    1 2 pathPosA pathPosB (by decide)
    (by simp [currentPositions, commState])
    (by simp [currentPositions, commState])⟩

/-- Any event of the proximity detector for a satellite with at least 10
stored samples is in the output of `analyze`. -/
theorem proximity_mem_analyze (pyFormat : ℕ → ℝ → String)
    (ps : List SatellitePosition) (s : AnalyzerState) (a : ℤ)
    (la : List SatellitePosition) (pa : SatellitePosition)
    (hmemA : (a, la) ∈ s.satellite_positions)
    (hlenA : 10 ≤ la.length)
    (hlastA : la.getLast? = some pa)
    {e : ThreatEvent} (he : e ∈ detect_proximity_threats pyFormat s a pa) :
    e ∈ analyze_satellite_anomalies pyFormat ps s := by
  unfold analyze_satellite_anomalies
  apply List.mem_flatMap.mpr
  refine ⟨(a, la), hmemA, ?_⟩
  rw [if_neg (by simp only; omega)]
  simp only [hlastA]
  exact List.mem_append_right _ he

/-- C3 (amended): if two satellites have latest samples at computed 3D
distance 50 km and the triggering satellite has at least 10 stored samples
(the other needs only one), `analyze` emits a PROXIMITY_THREAT of severity
CRITICAL whose source is the triggering latest coordinate, whose target is
the other latest coordinate, and whose description names the other
satellite id. -/
theorem C3_proximity_threat_at_50km (pyFormat : ℕ → ℝ → String)
    (ps : List SatellitePosition) (s : AnalyzerState) (a b : ℤ)
    (la lb : List SatellitePosition) (pa pb : SatellitePosition)
    (hmemA : (a, la) ∈ s.satellite_positions)
    (hmemB : (b, lb) ∈ s.satellite_positions)
    (hab : b ≠ a)
    (hlenA : 10 ≤ la.length)
    (hlastA : la.getLast? = some pa)
    (hlastB : lb.getLast? = some pb)
    (hdist : calculate_3d_distance pa pb = 50) :
    ∃ e ∈ analyze_satellite_anomalies pyFormat ps s,
      e.threat_type = "PROXIMITY_THREAT" ∧
      e.severity = "CRITICAL" ∧
      e.satellite_id = some a ∧
      e.source_lat = pa.latitude ∧ e.source_lon = pa.longitude ∧
      e.target_lat = pb.latitude ∧ e.target_lon = pb.longitude ∧
      ∃ rest, e.description =
        "Collision risk with satellite " ++ toString b ++ rest := by
  have hlbne : lb ≠ [] := by
    intro h
    rw [h] at hlastB
    cases hlastB
  have hev : mkProxEvent pyFormat a b pa pb ∈
      detect_proximity_threats pyFormat s a pa := by
    unfold detect_proximity_threats
    apply List.mem_flatMap.mpr
    refine ⟨(b, lb), hmemB, ?_⟩
    rw [if_neg (by simp only; exact not_or.mpr ⟨hab, hlbne⟩)]
    simp only [hlastB]
    rw [if_pos (by rw [hdist]; norm_num)]
    exact List.mem_singleton.mpr rfl
  refine ⟨_, proximity_mem_analyze pyFormat ps s a la pa hmemA hlenA hlastA hev,
    rfl, rfl, rfl, rfl, rfl, rfl, rfl,
    ⟨": " ++ pyFormat 1 (calculate_3d_distance pa pb) ++ "km separation",
      by simp only [mkProxEvent, String.append_assoc]⟩⟩

/-- Latest (10th) sample of satellite 1 for the C3 witness. -/
def proxPosA : SatellitePosition :=
  { satellite_id := 1, latitude := 0, longitude := 0, altitude := 500,
    velocity := 7.5, timestamp := 9 }

/-- The ten stored samples of satellite 1 for the C3 witness. -/
def proxHistA : List SatellitePosition :=
  (List.range 10).map (fun (i : ℕ) =>
    { satellite_id := 1, latitude := 0, longitude := 0, altitude := 500,
      velocity := 7.5, timestamp := (i : ℤ) })

/-- The single sample of satellite 2 for the C3 witness: altitude 550 km at
the equator, i.e. 50 km from `proxPosA`. -/
def proxPosB : SatellitePosition :=
  { satellite_id := 2, latitude := 0, longitude := 0, altitude := 550,
    velocity := 7.5, timestamp := 0 }

/-- Store for the C3 witness. -/
def proxState : AnalyzerState :=
  { threat_events := [], satellite_positions := [(1, proxHistA), (2, [proxPosB])] }

theorem proxState_distance : calculate_3d_distance proxPosA proxPosB = 50 := by
  rw [calculate_3d_distance_equator proxPosA proxPosB rfl rfl rfl rfl]
  show |(550 : ℝ) - 500| = 50
  norm_num

/-- Witness for C3 at a concrete store 50 km apart. -/
theorem C3_proximity_threat_at_50km_witness :
    ∃ e ∈ analyze_satellite_anomalies (fun _ _ => "") [proxPosA] proxState,
      e.threat_type = "PROXIMITY_THREAT" ∧
      e.severity = "CRITICAL" ∧
      e.satellite_id = some 1 ∧
      e.source_lat = proxPosA.latitude ∧ e.source_lon = proxPosA.longitude ∧
      e.target_lat = proxPosB.latitude ∧ e.target_lon = proxPosB.longitude ∧
      ∃ rest, e.description =
        "Collision risk with satellite " ++ toString (2 : ℤ) ++ rest :=
  C3_proximity_threat_at_50km (fun _ _ => "") [proxPosA] proxState 1 2
    proxHistA [proxPosB] proxPosA proxPosB
    (by simp [proxState])
    (by simp [proxState])
    (by decide)
    (by rw [proxHistA, List.length_map, List.length_range])
    (by rfl)
    (by rfl)
    proxState_distance

/-- C3 as stated is false: two satellites with a single recorded sample each
at computed distance 50 km produce no event at all, because `analyze` skips
every satellite with fewer than 10 stored samples. -/
theorem C3_counterexample :
    calculate_3d_distance proxPosA proxPosB = 50 ∧
    analyze_satellite_anomalies (fun _ _ => "") [proxPosA]
      { threat_events := [],
        satellite_positions := [(1, [proxPosA]), (2, [proxPosB])] } = [] := by
  refine ⟨proxState_distance, ?_⟩
  simp [analyze_satellite_anomalies]

/-- Concrete five-sample constant-speed window for the C8 witness. -/
def constWindow : List SatellitePosition :=
  (List.range 5).map (fun (i : ℕ) =>
    { satellite_id := 3, latitude := 0, longitude := 0, altitude := 500,
      velocity := 7.5, timestamp := (i : ℤ) })

/-- Witness for C8 at a concrete constant-speed window. -/
theorem C8_constant_speed_no_anomaly_witness :
    detect_velocity_anomalies (fun _ _ => "") constWindow 3 = [] :=
  C8_constant_speed_no_anomaly (fun _ _ => "") constWindow 3 (by
    intro p hp q hq
    simp only [constWindow, List.mem_map] at hp hq
    obtain ⟨i, _, rfl⟩ := hp
    obtain ⟨j, _, rfl⟩ := hq
    rfl)

/-! ### The velocity spike scenario and the batch argument -/

/-- A fixed trivial instantiation of the float formatter, used to build
concrete inputs. -/
def pf0 : ℕ → ℝ → String := fun _ _ => ""

theorem threat_type_of_mem_velocity {pyFormat : ℕ → ℝ → String}
    {w : List SatellitePosition} {sat_id : ℤ} {e : ThreatEvent}
    (h : e ∈ detect_velocity_anomalies pyFormat w sat_id) :
    e.threat_type = "VELOCITY_ANOMALY" := by
  unfold detect_velocity_anomalies at h
  split at h
  · cases h
  · obtain ⟨i, _, rfl⟩ := List.mem_map.mp h
    rfl

theorem threat_type_of_mem_trajectory {pyFormat : ℕ → ℝ → String}
    {w : List SatellitePosition} {sat_id : ℤ} {e : ThreatEvent}
    (h : e ∈ detect_trajectory_anomalies pyFormat w sat_id) :
    e.threat_type = "TRAJECTORY_ANOMALY" := by
  unfold detect_trajectory_anomalies at h
  split at h
  · cases h
  · obtain ⟨i, _, rfl⟩ := List.mem_map.mp h
    rfl

theorem threat_type_of_mem_proximity {pyFormat : ℕ → ℝ → String}
    {s : AnalyzerState} {sat_id : ℤ} {p : SatellitePosition} {e : ThreatEvent}
    (h : e ∈ detect_proximity_threats pyFormat s sat_id p) :
    e.threat_type = "PROXIMITY_THREAT" := by
  unfold detect_proximity_threats at h
  obtain ⟨entry, _, he⟩ := List.mem_flatMap.mp h
  split at he
  · cases he
  · cases hl : entry.2.getLast? with
    | none =>
      rw [hl] at he
      cases he
    | some lastp =>
      simp only [hl] at he
      split at he
      · rw [List.mem_singleton.mp he]
        rfl
      · cases he

/-- Filtering the output of `analyze` down to VELOCITY_ANOMALY events keeps
exactly the velocity-detector output of each eligible satellite. -/
theorem analyze_filter_velocity (pyFormat : ℕ → ℝ → String)
    (ps : List SatellitePosition) (s : AnalyzerState) :
    (analyze_satellite_anomalies pyFormat ps s).filter
        (fun e => e.threat_type = "VELOCITY_ANOMALY") =
      s.satellite_positions.flatMap (fun entry =>
        if entry.2.length < 10 then []
        else detect_velocity_anomalies pyFormat (lastN 50 entry.2) entry.1) := by
  unfold analyze_satellite_anomalies
  rw [List.filter_flatMap]
  congr 1
  funext entry
  by_cases hshort : entry.2.length < 10
  · rw [if_pos hshort, if_pos hshort, List.filter_nil]
  · rw [if_neg hshort, if_neg hshort, List.filter_append, List.filter_append]
    rw [List.filter_eq_self.mpr
        (fun e he => by simp [threat_type_of_mem_velocity he]),
      List.filter_eq_nil_iff.mpr
        (fun e he => by simp [threat_type_of_mem_trajectory he])]
    cases hl : entry.2.getLast? with
    | none => simp [hl]
    | some lastp =>
      simp only [hl]
      rw [List.filter_eq_nil_iff.mpr
        (fun e he => by simp [threat_type_of_mem_proximity he])]
      simp

/-- Evaluation of the anomaly mask on a 12-sample window whose speeds are
all 7.5 km/s except 9.0 km/s at row 5 (the 6th sample): rows 5 and 6 are
flagged (the spike and the return to baseline). -/
theorem velAnomalyIdx_spike12 (w : List SatellitePosition)
    (hlen : w.length = 12)
    (hv : ∀ i < 12, rowVel w i = if i = 5 then 9 else 7.5) :
    velAnomalyIdx w = [5, 6] := by
  have h0 : rowVel w 0 = 7.5 := by simpa using hv 0 (by norm_num)
  have h1 : rowVel w 1 = 7.5 := by simpa using hv 1 (by norm_num)
  have h2 : rowVel w 2 = 7.5 := by simpa using hv 2 (by norm_num)
  have h3 : rowVel w 3 = 7.5 := by simpa using hv 3 (by norm_num)
  have h4 : rowVel w 4 = 7.5 := by simpa using hv 4 (by norm_num)
  have h5 : rowVel w 5 = 9 := by simpa using hv 5 (by norm_num)
  have h6 : rowVel w 6 = 7.5 := by simpa using hv 6 (by norm_num)
  have h7 : rowVel w 7 = 7.5 := by simpa using hv 7 (by norm_num)
  have h8 : rowVel w 8 = 7.5 := by simpa using hv 8 (by norm_num)
  have h9 : rowVel w 9 = 7.5 := by simpa using hv 9 (by norm_num)
  have h10 : rowVel w 10 = 7.5 := by simpa using hv 10 (by norm_num)
  have h11 : rowVel w 11 = 7.5 := by simpa using hv 11 (by norm_num)
  have hchanges : velChanges w =
      [0, 0, 0, 0, 1.5, -1.5, 0, 0, 0, 0, 0] := by
    unfold velChanges
    rw [hlen, show (12 - 1 : ℕ) = 11 from rfl,
      show List.range 11 = [0, 1, 2, 3, 4, 5, 6, 7, 8, 9, 10] from rfl]
    simp only [List.map_cons, List.map_nil]
    norm_num [h0, h1, h2, h3, h4, h5, h6, h7, h8, h9, h10, h11]
  have hmean : velMean w = 0 := by
    rw [velMean, hchanges, hlen]
    norm_num [List.sum_cons, List.sum_nil]
  have hstd : velStd w = Real.sqrt 0.45 := by
    rw [velStd, hchanges, hlen]
    simp only [hmean, sub_zero, List.map_cons, List.map_nil]
    norm_num [List.sum_cons, List.sum_nil]
  have hs : Real.sqrt 0.45 < 0.75 := (Real.sqrt_lt' (by norm_num)).mpr (by norm_num)
  have hsn : (0 : ℝ) ≤ 2 * Real.sqrt 0.45 := by positivity
  have htrue15 : |(9 : ℝ) - 7.5| > 2 * Real.sqrt 0.45 := by
    rw [show (9 : ℝ) - 7.5 = 1.5 from by norm_num, abs_of_pos (by norm_num)]
    linarith
  have htrue75 : |(7.5 : ℝ) - 9| > 2 * Real.sqrt 0.45 := by
    rw [show (7.5 : ℝ) - 9 = -1.5 from by norm_num, abs_neg,
      abs_of_pos (by norm_num)]
    linarith
  have hval : ∀ i, 1 ≤ i → i < 12 → i ≠ 5 → i ≠ 6 →
      rowVel w i - rowVel w (i - 1) = 0 := by
    intro i hi1 hi2 hi5 hi6
    have ha := hv i hi2
    have hb := hv (i - 1) (by omega)
    rw [if_neg hi5] at ha
    rw [if_neg (by omega : ¬ i - 1 = 5)] at hb
    rw [ha, hb, sub_self]
  have hflag : ∀ i, i < 12 →
      ((1 ≤ i ∧ |rowVel w i - rowVel w (i - 1) - velMean w| > 2 * velStd w) ↔
        (i = 5 ∨ i = 6)) := by
    intro i hi
    rw [hmean, hstd, sub_zero]
    constructor
    · rintro ⟨hi1, habs⟩
      by_contra hcon
      push_neg at hcon
      rw [hval i hi1 hi hcon.1 hcon.2, abs_zero] at habs
      exact absurd habs (not_lt.mpr hsn)
    · rintro (rfl | rfl)
      · refine ⟨by norm_num, ?_⟩
        rw [show (5 : ℕ) - 1 = 4 from rfl, h5, h4]
        exact htrue15
      · refine ⟨by norm_num, ?_⟩
        rw [show (6 : ℕ) - 1 = 5 from rfl, h6, h5]
        exact htrue75
  have cneg : ∀ i, i < 12 → i ≠ 5 → i ≠ 6 →
      ¬(1 ≤ i ∧ |rowVel w i - rowVel w (i - 1) - velMean w| > 2 * velStd w) := by
    intro i hi hi5 hi6 h
    rcases (hflag i hi).mp h with rfl | rfl
    · exact hi5 rfl
    · exact hi6 rfl
  have cpos5 : 1 ≤ 5 ∧
      |rowVel w 5 - rowVel w (5 - 1) - velMean w| > 2 * velStd w :=
    (hflag 5 (by norm_num)).mpr (Or.inl rfl)
  have cpos6 : 1 ≤ 6 ∧
      |rowVel w 6 - rowVel w (6 - 1) - velMean w| > 2 * velStd w :=
    (hflag 6 (by norm_num)).mpr (Or.inr rfl)
  unfold velAnomalyIdx
  rw [hlen, show List.range 12 = [0, 1, 2, 3, 4, 5, 6, 7, 8, 9, 10, 11] from rfl]
  simp only [List.filter_cons, List.filter_nil, decide_eq_true_eq]
  rw [if_neg (cneg 0 (by norm_num) (by norm_num) (by norm_num)),
    if_neg (cneg 1 (by norm_num) (by norm_num) (by norm_num)),
    if_neg (cneg 2 (by norm_num) (by norm_num) (by norm_num)),
    if_neg (cneg 3 (by norm_num) (by norm_num) (by norm_num)),
    if_neg (cneg 4 (by norm_num) (by norm_num) (by norm_num)),
    if_pos cpos5, if_pos cpos6,
    if_neg (cneg 7 (by norm_num) (by norm_num) (by norm_num)),
    if_neg (cneg 8 (by norm_num) (by norm_num) (by norm_num)),
    if_neg (cneg 9 (by norm_num) (by norm_num) (by norm_num)),
    if_neg (cneg 10 (by norm_num) (by norm_num) (by norm_num)),
    if_neg (cneg 11 (by norm_num) (by norm_num) (by norm_num))]

/-- The velocity detector on the 12-sample spike window returns exactly the
two events of rows 5 and 6. -/
theorem detect_velocity_spike12 (pyFormat : ℕ → ℝ → String)
    (w : List SatellitePosition) (sat_id : ℤ)
    (hlen : w.length = 12)
    (hv : ∀ i < 12, rowVel w i = if i = 5 then 9 else 7.5) :
    detect_velocity_anomalies pyFormat w sat_id =
      [mkVelEvent pyFormat sat_id w 5, mkVelEvent pyFormat sat_id w 6] := by
  unfold detect_velocity_anomalies
  rw [if_neg (by rw [hlen]; norm_num), velAnomalyIdx_spike12 w hlen hv]
  rfl

/-- On a store holding only satellite 7 with the 12-sample spike window,
the VELOCITY_ANOMALY events of `analyze` are exactly the two of rows 5
and 6. -/
theorem analyze_spike12_filter (pyFormat : ℕ → ℝ → String)
    (ps : List SatellitePosition) (es : List ThreatEvent)
    (w : List SatellitePosition)
    (hlen : w.length = 12)
    (hv : ∀ i < 12, rowVel w i = if i = 5 then 9 else 7.5) :
    (analyze_satellite_anomalies pyFormat ps
        { threat_events := es, satellite_positions := [(7, w)] }).filter
        (fun e => e.threat_type = "VELOCITY_ANOMALY") =
      [mkVelEvent pyFormat 7 w 5, mkVelEvent pyFormat 7 w 6] := by
  rw [analyze_filter_velocity]
  simp only [List.flatMap_cons, List.flatMap_nil, List.append_nil]
  rw [if_neg (by omega : ¬ w.length < 10), lastN_of_length_le (by omega)]
  exact detect_velocity_spike12 pyFormat w 7 hlen hv

/-- C2 (amended): if satellite 7's stored history is exactly 12 samples
with speeds 7.5 km/s except 9.0 km/s at the 6th sample, `analyze` returns
exactly two VELOCITY_ANOMALY events for satellite 7 — not one: the spike
(6th sample) and the return to baseline (7th sample); the first of them has
source and target coordinates equal to the 6th sample's coordinates. -/
theorem C2_spike_two_velocity_events (pyFormat : ℕ → ℝ → String)
    (ps : List SatellitePosition) (es : List ThreatEvent)
    (w : List SatellitePosition)
    (hlen : w.length = 12)
    (hv : ∀ i < 12, rowVel w i = if i = 5 then 9 else 7.5) :
    (analyze_satellite_anomalies pyFormat ps
        { threat_events := es, satellite_positions := [(7, w)] }).filter
        (fun e => e.threat_type = "VELOCITY_ANOMALY") =
      [mkVelEvent pyFormat 7 w 5, mkVelEvent pyFormat 7 w 6] ∧
    (mkVelEvent pyFormat 7 w 5).source_lat = (w.getD 5 default).latitude ∧
    (mkVelEvent pyFormat 7 w 5).source_lon = (w.getD 5 default).longitude ∧
    (mkVelEvent pyFormat 7 w 5).target_lat = (w.getD 5 default).latitude ∧
    (mkVelEvent pyFormat 7 w 5).target_lon = (w.getD 5 default).longitude :=
  ⟨analyze_spike12_filter pyFormat ps es w hlen hv, rfl, rfl, rfl, rfl⟩

/-- The concrete 12-sample spike window of satellite 7. -/
def spikeWindow : List SatellitePosition :=
  (List.range 12).map (fun (i : ℕ) =>
    { satellite_id := 7, latitude := 0, longitude := 0, altitude := 500,
      velocity := if i = 5 then 9 else 7.5, timestamp := (i : ℤ) })

theorem spikeWindow_length : spikeWindow.length = 12 := by
  rw [spikeWindow, List.length_map, List.length_range]

theorem spikeWindow_vel :
    ∀ i < 12, rowVel spikeWindow i = if i = 5 then 9 else 7.5 := by
  intro i hi
  interval_cases i <;> rfl

/-- Witness for C2 at the concrete spike window. -/
theorem C2_spike_two_velocity_events_witness :
    (analyze_satellite_anomalies pf0 []
        { threat_events := [], satellite_positions := [(7, spikeWindow)] }).filter
        (fun e => e.threat_type = "VELOCITY_ANOMALY") =
      [mkVelEvent pf0 7 spikeWindow 5, mkVelEvent pf0 7 spikeWindow 6] ∧
    (mkVelEvent pf0 7 spikeWindow 5).source_lat =
      (spikeWindow.getD 5 default).latitude ∧
    (mkVelEvent pf0 7 spikeWindow 5).source_lon =
      (spikeWindow.getD 5 default).longitude ∧
    (mkVelEvent pf0 7 spikeWindow 5).target_lat =
      (spikeWindow.getD 5 default).latitude ∧
    (mkVelEvent pf0 7 spikeWindow 5).target_lon =
      (spikeWindow.getD 5 default).longitude :=
  C2_spike_two_velocity_events pf0 [] [] spikeWindow spikeWindow_length
    spikeWindow_vel

/-- C2 as stated is false: on the concrete spike store the number of
VELOCITY_ANOMALY events returned by `analyze` is 2, not 1. -/
theorem C2_counterexample :
    ((analyze_satellite_anomalies pf0 []
        { threat_events := [], satellite_positions := [(7, spikeWindow)] }).filter
        (fun e => e.threat_type = "VELOCITY_ANOMALY")).length = 2 ∧
    ((analyze_satellite_anomalies pf0 []
        { threat_events := [], satellite_positions := [(7, spikeWindow)] }).filter
        (fun e => e.threat_type = "VELOCITY_ANOMALY")).length ≠ 1 := by
  rw [analyze_spike12_filter pf0 [] [] spikeWindow spikeWindow_length
    spikeWindow_vel]
  exact ⟨rfl, by norm_num⟩

/-- C1 (amended): `analyze` ignores its `positions` argument entirely; it
runs the three detectors for every stored satellite with at least 10
history samples (velocity and trajectory over the last-50 window, proximity
on the latest sample versus all other satellites) and returns the
concatenation, so events may concern satellites absent from the batch and
batch satellites with a short history contribute nothing. -/
theorem C1_analyze_ignores_batch (pyFormat : ℕ → ℝ → String)
    (s : AnalyzerState) :
    (∀ ps ps' : List SatellitePosition,
      analyze_satellite_anomalies pyFormat ps s =
        analyze_satellite_anomalies pyFormat ps' s) ∧
    (∀ (ps : List SatellitePosition) (e : ThreatEvent),
      e ∈ analyze_satellite_anomalies pyFormat ps s ↔
        ∃ entry ∈ s.satellite_positions, 10 ≤ entry.2.length ∧
          (e ∈ detect_velocity_anomalies pyFormat (lastN 50 entry.2) entry.1 ∨
           e ∈ detect_trajectory_anomalies pyFormat (lastN 50 entry.2) entry.1 ∨
           ∃ lastp, entry.2.getLast? = some lastp ∧
             e ∈ detect_proximity_threats pyFormat s entry.1 lastp)) := by
  constructor
  · intro ps ps'
    rfl
  · intro ps e
    unfold analyze_satellite_anomalies
    rw [List.mem_flatMap]
    constructor
    · rintro ⟨entry, hmem, he⟩
      by_cases hshort : entry.2.length < 10
      · rw [if_pos hshort] at he
        cases he
      · rw [if_neg hshort] at he
        refine ⟨entry, hmem, by omega, ?_⟩
        rcases List.mem_append.mp he with he' | he'
        · rcases List.mem_append.mp he' with hvel | htraj
          · exact Or.inl hvel
          · exact Or.inr (Or.inl htraj)
        · cases hl : entry.2.getLast? with
          | none => rw [hl] at he'; cases he'
          | some lastp =>
            rw [hl] at he'
            exact Or.inr (Or.inr ⟨lastp, rfl, he'⟩)
    · rintro ⟨entry, hmem, hlen, hcase⟩
      refine ⟨entry, hmem, ?_⟩
      rw [if_neg (by omega)]
      rcases hcase with hvel | htraj | ⟨lastp, hl, hprox⟩
      · exact List.mem_append_left _ (List.mem_append_left _ hvel)
      · exact List.mem_append_left _ (List.mem_append_right _ htraj)
      · rw [hl]
        exact List.mem_append_right _ hprox

/-- The single batch sample of satellite 2 for the C1 counterexample. -/
def batchPos2 : SatellitePosition :=
  { satellite_id := 2, latitude := 0, longitude := 0, altitude := 500,
    velocity := 7.5, timestamp := 0 }

/-- C1 as stated is false: with a batch containing only a sample of
satellite 2, `analyze` still returns the two VELOCITY_ANOMALY events of the
stored satellite 7 (which is not in the batch). -/
theorem C1_counterexample :
    batchPos2.satellite_id = 2 ∧
    (analyze_satellite_anomalies pf0 [batchPos2]
        { threat_events := [], satellite_positions := [(7, spikeWindow)] }).filter
        (fun e => e.threat_type = "VELOCITY_ANOMALY") =
      [mkVelEvent pf0 7 spikeWindow 5, mkVelEvent pf0 7 spikeWindow 6] ∧
    (mkVelEvent pf0 7 spikeWindow 5).satellite_id = some 7 ∧
    (mkVelEvent pf0 7 spikeWindow 6).satellite_id = some 7 :=
  ⟨rfl,
   analyze_spike12_filter pf0 [batchPos2] [] spikeWindow spikeWindow_length
     spikeWindow_vel,
   rfl, rfl⟩

/-! ### Threat zones -/

theorem zoneAdj_symm (s : AnalyzerState) :
    ∀ i j, zoneAdj s i j → zoneAdj s j i := by
  rintro i j ⟨h1, h2, h3⟩
  refine ⟨h2, h1, ?_⟩
  have heq :
      (((zoneRows s).getD j default).source_lat -
          ((zoneRows s).getD i default).source_lat) ^ 2 +
        (((zoneRows s).getD j default).source_lon -
          ((zoneRows s).getD i default).source_lon) ^ 2 =
      (((zoneRows s).getD i default).source_lat -
          ((zoneRows s).getD j default).source_lat) ^ 2 +
        (((zoneRows s).getD i default).source_lon -
          ((zoneRows s).getD j default).source_lon) ^ 2 := by
    ring
  rw [heq]
  exact h3

theorem zoneAdj_refl (s : AnalyzerState) :
    ∀ i, i < (zoneRows s).length → zoneAdj s i i := by
  intro i hi
  refine ⟨hi, hi, ?_⟩
  simp only [sub_self]
  norm_num [Real.sqrt_zero]

/-- C10: every threat zone returned by the aggregator summarizes at least 3
events: with `min_samples = 3`, a cluster representative's own inclusive
neighbourhood (of size at least 3) always belongs to its cluster. -/
theorem C10_zone_count_at_least_3 (s : AnalyzerState) :
    ∀ z ∈ generate_threat_zones s, 3 ≤ z.threat_count := by
  intro z hz
  unfold generate_threat_zones at hz
  split at hz
  · cases hz
  · obtain ⟨c, hc, rfl⟩ := List.mem_map.mp hz
    have hc' := List.mem_range.mp hc
    show 3 ≤ (zoneMembers s c).length
    unfold zoneMembers
    rw [List.length_map]
    exact DBSCAN.minPts_le_length_membersIdx (zoneAdj_symm s) (zoneAdj_refl s)
      (le_refl 3) hc'

theorem foldl_min_mem {α : Type} [LinearOrder α] :
    ∀ (vs : List α) (v : α), vs.foldl min v ∈ v :: vs := by
  intro vs
  induction vs with
  | nil => exact fun v => List.mem_singleton.mpr rfl
  | cons a t ih =>
    intro v
    rw [List.foldl_cons]
    rcases List.mem_cons.mp (ih (min v a)) with h | h
    · rw [h]
      rcases min_choice v a with h' | h'
      · rw [h']
        exact List.mem_cons_self _ _
      · rw [h']
        exact List.mem_cons_of_mem _ (List.mem_cons_self _ _)
    · exact List.mem_cons_of_mem _ (List.mem_cons_of_mem _ h)

theorem foldl_min_le {α : Type} [LinearOrder α] :
    ∀ (vs : List α) (v x : α), x ∈ v :: vs → vs.foldl min v ≤ x := by
  intro vs
  induction vs with
  | nil =>
    intro v x hx
    rw [List.mem_singleton.mp hx]
    exact le_refl v
  | cons a t ih =>
    intro v x hx
    rw [List.foldl_cons]
    have hbase : t.foldl min (min v a) ≤ min v a :=
      ih (min v a) (min v a) (List.mem_cons_self _ _)
    rcases List.mem_cons.mp hx with h | hx'
    · exact le_trans hbase (le_trans (min_le_left v a) (le_of_eq h.symm))
    · rcases List.mem_cons.mp hx' with h | hx''
      · exact le_trans hbase (le_trans (min_le_right v a) (le_of_eq h.symm))
      · exact ih (min v a) x (List.mem_cons_of_mem _ hx'')

theorem foldr_max_mem :
    ∀ l : List ℕ, l.foldr max 0 ∈ l ∨ l.foldr max 0 = 0 := by
  intro l
  induction l with
  | nil => exact Or.inr rfl
  | cons a t ih =>
    rw [List.foldr_cons]
    rcases ih with h | h
    · rcases max_choice a (t.foldr max 0) with h' | h'
      · rw [h']
        exact Or.inl (List.mem_cons_self _ _)
      · rw [h']
        exact Or.inl (List.mem_cons_of_mem _ h)
    · rw [h, Nat.max_zero]
      exact Or.inl (List.mem_cons_self _ _)

theorem le_foldr_max :
    ∀ (l : List ℕ) (x : ℕ), x ∈ l → x ≤ l.foldr max 0 := by
  intro l
  induction l with
  | nil => exact fun x hx => absurd hx (List.not_mem_nil x)
  | cons a t ih =>
    intro x hx
    rw [List.foldr_cons]
    rcases List.mem_cons.mp hx with rfl | hx'
    · exact le_max_left _ _
    · exact le_trans (ih x hx') (le_max_right _ _)

/-- Characterization of pandas `mode().iloc[0]`: a most-frequent value of
the series, and the smallest such value in sort order. -/
theorem seriesModeHead_spec (l : List String) (hl : l ≠ []) :
    seriesModeHead l ∈ l ∧
    l.count (seriesModeHead l) = (l.map (fun v => l.count v)).foldr max 0 ∧
    ∀ k ∈ l, l.count k = (l.map (fun v => l.count v)).foldr max 0 →
      seriesModeHead l ≤ k := by
  have hmcmem : (l.map (fun v => l.count v)).foldr max 0 ∈
      l.map (fun v => l.count v) := by
    rcases foldr_max_mem (l.map fun v => l.count v) with h | h
    · exact h
    · exfalso
      obtain ⟨a, t, rfl⟩ := List.exists_cons_of_ne_nil hl
      have hle := le_foldr_max ((a :: t).map fun v => (a :: t).count v) _
        (List.mem_map_of_mem _ (List.mem_cons_self a t))
      rw [h] at hle
      have hpos : 0 < (a :: t).count a :=
        List.count_pos_iff.mpr (List.mem_cons_self a t)
      omega
  obtain ⟨v0, hv0mem, hv0⟩ := List.mem_map.mp hmcmem
  have hcand : v0 ∈ l.filter
      (fun v => l.count v = (l.map (fun v => l.count v)).foldr max 0) :=
    List.mem_filter.mpr ⟨hv0mem, by simp [hv0]⟩
  cases hfil : l.filter
      (fun v => l.count v = (l.map (fun v => l.count v)).foldr max 0) with
  | nil =>
    rw [hfil] at hcand
    cases hcand
  | cons c cs =>
    have hsm : seriesModeHead l = cs.foldl min c := by
      unfold seriesModeHead
      rw [hfil]
    have hsmfil : seriesModeHead l ∈ l.filter
        (fun v => l.count v = (l.map (fun v => l.count v)).foldr max 0) := by
      rw [hfil, hsm]
      exact foldl_min_mem cs c
    have hprop := List.mem_filter.mp hsmfil
    refine ⟨hprop.1, by simpa using hprop.2, ?_⟩
    intro k hk hkc
    have hkfil : k ∈ l.filter
        (fun v => l.count v = (l.map (fun v => l.count v)).foldr max 0) :=
      List.mem_filter.mpr ⟨hk, by simp [hkc]⟩
    rw [hfil] at hkfil
    rw [hsm]
    exact foldl_min_le cs c k hkfil

/-- C4 (amended): every returned zone describes one DBSCAN cluster: its
centroid is the arithmetic mean of the member coordinates, its severity the
bucketed mean of the member severity ranks, its radius the constant 500,
its count the cluster size, and its dominant kind a most frequent member
kind — with ties broken by the smallest kind in lexicographic sort order
(pandas `mode()` is sorted), not by first encounter. -/
theorem C4_zone_aggregation (s : AnalyzerState) :
    ∀ z ∈ generate_threat_zones s,
      ∃ M : List ThreatEvent, M ≠ [] ∧
        (∃ c < DBSCAN.numClusters (zoneRows s).length 3 (zoneAdj s),
          M = zoneMembers s c) ∧
        z.center_lat = (M.map ThreatEvent.source_lat).sum / (M.length : ℝ) ∧
        z.center_lon = (M.map ThreatEvent.source_lon).sum / (M.length : ℝ) ∧
        z.radius = 500 ∧
        z.threat_count = M.length ∧
        z.severity = zone_severity_of
          (M.filterMap (fun t => severity_scores t.severity)) ∧
        z.dominant_threat ∈ M.map ThreatEvent.threat_type ∧
        (M.map ThreatEvent.threat_type).count z.dominant_threat =
          ((M.map ThreatEvent.threat_type).map
            (fun v => (M.map ThreatEvent.threat_type).count v)).foldr max 0 ∧
        ∀ k ∈ M.map ThreatEvent.threat_type,
          (M.map ThreatEvent.threat_type).count k =
            ((M.map ThreatEvent.threat_type).map
              (fun v => (M.map ThreatEvent.threat_type).count v)).foldr max 0 →
          z.dominant_threat ≤ k := by
  intro z hz
  unfold generate_threat_zones at hz
  split at hz
  · cases hz
  · obtain ⟨c, hc, rfl⟩ := List.mem_map.mp hz
    have hc' := List.mem_range.mp hc
    have h3 : 3 ≤ (zoneMembers s c).length := by
      unfold zoneMembers
      rw [List.length_map]
      exact DBSCAN.minPts_le_length_membersIdx (zoneAdj_symm s)
        (zoneAdj_refl s) (le_refl 3) hc'
    have hMne : zoneMembers s c ≠ [] := by
      intro h
      rw [h] at h3
      simp at h3
    have hmapne : (zoneMembers s c).map ThreatEvent.threat_type ≠ [] := by
      simp only [ne_eq, List.map_eq_nil_iff]
      exact hMne
    obtain ⟨hmem, hcount, hmin⟩ := seriesModeHead_spec _ hmapne
    simp only [mkThreatZone]
    exact ⟨zoneMembers s c, hMne, ⟨c, hc', rfl⟩, rfl, rfl, True.intro,
      rfl, rfl, hmem, hcount, hmin⟩

/-- On a point set whose adjacency is total (every pair within `eps`),
DBSCAN produces the single cluster `0` containing every point. -/
theorem DBSCAN.complete_eval (n minPts : ℕ) (adj : ℕ → ℕ → Prop)
    (hadj : ∀ i j, adj i j ↔ (i < n ∧ j < n)) (hmin : minPts ≤ n)
    (hn : 0 < n) :
    DBSCAN.numClusters n minPts adj = 1 ∧
    DBSCAN.membersIdx n minPts adj 0 = List.range n := by
  have hnb : ∀ i, i < n → DBSCAN.neighbors n adj i = Finset.range n := by
    intro i hi
    unfold DBSCAN.neighbors
    apply Finset.filter_true_of_mem
    intro j hj
    exact (hadj i j).mpr ⟨hi, Finset.mem_range.mp hj⟩
  have hcore : ∀ i, DBSCAN.core n minPts adj i ↔ i < n := by
    intro i
    constructor
    · exact fun h => h.1
    · intro hi
      refine ⟨hi, ?_⟩
      rw [hnb i hi, Finset.card_range]
      exact hmin
  have hreach : ∀ i j, i < n → j < n → DBSCAN.reach n minPts adj i j := by
    intro i j hi hj
    exact Relation.ReflTransGen.single
      ⟨(hcore i).mpr hi, (hcore j).mpr hj, (hadj i j).mpr ⟨hi, hj⟩⟩
  have hcm : ∀ i, i < n → DBSCAN.compMin n minPts adj i = 0 := by
    intro i hi
    have h1 : DBSCAN.compMin n minPts adj i ≤ 0 :=
      DBSCAN.compMin_le (hreach i 0 hi hn)
    omega
  have hreps : DBSCAN.reps n minPts adj = {0} := by
    apply Finset.ext
    intro j
    simp only [DBSCAN.reps, Finset.mem_filter, Finset.mem_range,
      Finset.mem_singleton]
    constructor
    · rintro ⟨hj, _, hcmj⟩
      rw [hcm j hj] at hcmj
      exact hcmj.symm
    · rintro rfl
      exact ⟨hn, (hcore 0).mpr hn, hcm 0 hn⟩
  have hidx : ∀ i, i < n → DBSCAN.clusterIdx n minPts adj i = 0 := by
    intro i hi
    unfold DBSCAN.clusterIdx
    rw [hreps, hcm i hi]
    rw [Finset.filter_false_of_mem]
    · exact Finset.card_empty
    · intro x _
      omega
  refine ⟨?_, ?_⟩
  · unfold DBSCAN.numClusters
    rw [hreps]
    exact Finset.card_singleton 0
  · unfold DBSCAN.membersIdx
    apply List.filter_eq_self.mpr
    intro a ha
    have ha' := List.mem_range.mp ha
    simp only [decide_eq_true_eq]
    rw [DBSCAN.label, if_pos ((hcore a).mpr ha'), hidx a ha']

/-- One location-free threat event of the given kind: all coordinates 0. -/
def zev (k : String) : ThreatEvent :=
  { id := "", timestamp := 0, source_lat := 0, source_lon := 0,
    target_lat := 0, target_lon := 0, threat_type := k, severity := "MEDIUM",
    satellite_id := none, description := "" }

/-- Four co-located events with a 2-2 tie between VELOCITY_ANOMALY (seen
first) and PROXIMITY_THREAT (lexicographically smaller). -/
def zoneState : AnalyzerState :=
  { threat_events :=
      [zev "VELOCITY_ANOMALY", zev "VELOCITY_ANOMALY",
       zev "PROXIMITY_THREAT", zev "PROXIMITY_THREAT"],
    satellite_positions := [] }

theorem zoneState_lat :
    ∀ k, ((zoneRows zoneState).getD k default).source_lat = 0 := by
  intro k
  match k with
  | 0 => rfl
  | 1 => rfl
  | 2 => rfl
  | 3 => rfl
  | m + 4 => rfl

theorem zoneState_lon :
    ∀ k, ((zoneRows zoneState).getD k default).source_lon = 0 := by
  intro k
  match k with
  | 0 => rfl
  | 1 => rfl
  | 2 => rfl
  | 3 => rfl
  | m + 4 => rfl

theorem zoneAdj_zoneState :
    ∀ i j, zoneAdj zoneState i j ↔
      (i < (zoneRows zoneState).length ∧ j < (zoneRows zoneState).length) := by
  intro i j
  unfold zoneAdj
  constructor
  · rintro ⟨h1, h2, _⟩
    exact ⟨h1, h2⟩
  · rintro ⟨h1, h2⟩
    refine ⟨h1, h2, ?_⟩
    rw [zoneState_lat i, zoneState_lat j, zoneState_lon i, zoneState_lon j]
    norm_num [Real.sqrt_zero]

theorem zones_zoneState :
    generate_threat_zones zoneState = [mkThreatZone zoneState 0] := by
  obtain ⟨hk, _⟩ := DBSCAN.complete_eval (zoneRows zoneState).length 3
    (zoneAdj zoneState) zoneAdj_zoneState (by decide) (by decide)
  unfold generate_threat_zones
  rw [if_neg (by decide), hk]
  rfl

theorem zoneMembers_zoneState :
    zoneMembers zoneState 0 = zoneState.threat_events := by
  obtain ⟨_, hm⟩ := DBSCAN.complete_eval (zoneRows zoneState).length 3
    (zoneAdj zoneState) zoneAdj_zoneState (by decide) (by decide)
  unfold zoneMembers
  rw [hm]
  rfl

theorem modeHead_VVPP :
    seriesModeHead ["VELOCITY_ANOMALY", "VELOCITY_ANOMALY",
      "PROXIMITY_THREAT", "PROXIMITY_THREAT"] = "PROXIMITY_THREAT" := by
  obtain ⟨hmem, _, hmin⟩ := seriesModeHead_spec
    ["VELOCITY_ANOMALY", "VELOCITY_ANOMALY",
      "PROXIMITY_THREAT", "PROXIMITY_THREAT"] (by decide)
  have hminP := hmin "PROXIMITY_THREAT" (by decide) (by decide)
  have hVP : ¬ ("VELOCITY_ANOMALY" : String) ≤ "PROXIMITY_THREAT" := by
    rw [String.le_iff_toList_le]
    decide
  simp only [List.mem_cons, List.not_mem_nil, or_false] at hmem
  rcases hmem with h | h | h | h
  · rw [h] at hminP
    exact absurd hminP hVP
  · rw [h] at hminP
    exact absurd hminP hVP
  · exact h
  · exact h

/-- Following the claim's words (only for contrast with the code): the most
frequent kind with ties broken by the first kind encountered in the stable
enumeration order of the members. -/
def firstEncounteredMode (l : List String) : String :=
  match l.filter
      (fun v => l.count v = (l.map (fun v => l.count v)).foldr max 0) with
  | [] => ""
  | v :: _ => v

/-- C4 as stated is false at a 2-2 tie: with members
[VELOCITY_ANOMALY, VELOCITY_ANOMALY, PROXIMITY_THREAT, PROXIMITY_THREAT]
the zone's dominant kind is PROXIMITY_THREAT (pandas `mode()` is sorted, so
`iloc[0]` is the lexicographically smallest most-frequent kind), while the
first-encountered tie-break demanded by the claim gives VELOCITY_ANOMALY. -/
theorem C4_counterexample :
    (generate_threat_zones zoneState).map (fun z => z.dominant_threat) =
      ["PROXIMITY_THREAT"] ∧
    firstEncounteredMode
        ((zoneMembers zoneState 0).map ThreatEvent.threat_type) =
      "VELOCITY_ANOMALY" ∧
    ("PROXIMITY_THREAT" : String) ≠ "VELOCITY_ANOMALY" := by
  refine ⟨?_, ?_, by decide⟩
  · rw [zones_zoneState]
    simp only [List.map_cons, List.map_nil]
    rw [show (mkThreatZone zoneState 0).dominant_threat =
      seriesModeHead ((zoneMembers zoneState 0).map ThreatEvent.threat_type)
      from rfl]
    rw [zoneMembers_zoneState]
    rw [show zoneState.threat_events.map ThreatEvent.threat_type =
      ["VELOCITY_ANOMALY", "VELOCITY_ANOMALY",
        "PROXIMITY_THREAT", "PROXIMITY_THREAT"] from rfl]
    rw [modeHead_VVPP]
  · rw [zoneMembers_zoneState]
    rfl

/-- Witness for C4 at the concrete four-event store. -/
theorem C4_zone_aggregation_witness :
    ∃ M : List ThreatEvent, M ≠ [] ∧
      (∃ c < DBSCAN.numClusters (zoneRows zoneState).length 3
          (zoneAdj zoneState), M = zoneMembers zoneState c) ∧
      (mkThreatZone zoneState 0).center_lat =
        (M.map ThreatEvent.source_lat).sum / (M.length : ℝ) ∧
      (mkThreatZone zoneState 0).center_lon =
        (M.map ThreatEvent.source_lon).sum / (M.length : ℝ) ∧
      (mkThreatZone zoneState 0).radius = 500 ∧
      (mkThreatZone zoneState 0).threat_count = M.length ∧
      (mkThreatZone zoneState 0).severity = zone_severity_of
        (M.filterMap (fun t => severity_scores t.severity)) ∧
      (mkThreatZone zoneState 0).dominant_threat ∈
        M.map ThreatEvent.threat_type ∧
      (M.map ThreatEvent.threat_type).count
          (mkThreatZone zoneState 0).dominant_threat =
        ((M.map ThreatEvent.threat_type).map
          (fun v => (M.map ThreatEvent.threat_type).count v)).foldr max 0 ∧
      ∀ k ∈ M.map ThreatEvent.threat_type,
        (M.map ThreatEvent.threat_type).count k =
          ((M.map ThreatEvent.threat_type).map
            (fun v => (M.map ThreatEvent.threat_type).count v)).foldr max 0 →
        (mkThreatZone zoneState 0).dominant_threat ≤ k :=
  C4_zone_aggregation zoneState (mkThreatZone zoneState 0)
    (by rw [zones_zoneState]; exact List.mem_singleton.mpr rfl)

/-- Witness for C10 at the concrete four-event store. -/
theorem C10_zone_count_at_least_3_witness :
    3 ≤ (mkThreatZone zoneState 0).threat_count :=
  C10_zone_count_at_least_3 zoneState (mkThreatZone zoneState 0)
    (by rw [zones_zoneState]; exact List.mem_singleton.mpr rfl)

end SatTelemetry
